import Mathlib

/-!
Verification development for the OpenID Connect identity-provider configuration
validator of this repository (`internal/configuration/validator/identity_providers.go`).

The Go validator is shallowly embedded: each validator function is translated to a
pure Lean function; the in-place mutation of the shared configuration structure
becomes explicit state passing; the `*schema.StructValidator` error/warning sinks
become accumulated lists of tagged errors/warnings.  Cryptographic material is
abstracted to exactly the observations the validator makes of it (key type, RSA
modulus byte size, nil-ness of the public component, certificate-chain check
outcomes, thumbprint and introspected properties).
-/

namespace AutheliaOIDC

/-- `one_factor`: one of the reserved authorization policy names. -/
def policyOneFactor : String := "one_factor"

/-- `two_factor`: one of the reserved authorization policy names. -/
def policyTwoFactor : String := "two_factor"

/-- `deny`: one of the reserved authorization policy names. -/
def policyDeny : String := "deny"

/-- `oidc.SigningAlgRSAUsingSHA256`: the mandatory baseline RSA-SHA256 (JOSE `RS256`) algorithm. -/
def SigningAlgRSAUsingSHA256 : String := "RS256"

/-- `oidc.SigningAlgNone`: the `none` signing algorithm. -/
def SigningAlgNone : String := "none"

/-- `oidc.SigningAlgHMACUsingSHA256`: the JOSE `HS256` algorithm. -/
def SigningAlgHMACUsingSHA256 : String := "HS256"

/-- `oidc.KeyUseSignature`: the `sig` key use. -/
def KeyUseSignature : String := "sig"

/-- Modelled from the spec: `validOIDCIssuerJWKSigningAlgs` is "the supported asymmetric
signing algorithm set" (§4.1); its definition is not under `src/`.  We use the standard
JOSE asymmetric signing algorithms. -/
def validOIDCIssuerJWKSigningAlgs : List String :=
  ["RS256", "PS256", "ES256", "RS384", "PS384", "ES384", "RS512", "PS512", "ES512"]

/-- `utils.IsStringInSlice`: string membership in a slice. -/
def IsStringInSlice (needle : String) (haystack : List String) : Bool :=
  haystack.contains needle

/-- `utils.IsStringSliceContainsAll needles haystack`: every needle is in the haystack. -/
def IsStringSliceContainsAll (needles haystack : List String) : Bool :=
  needles.all (fun s => haystack.contains s)

/-- What the validator observes of a JWK's key material: only the dynamic type
(`*rsa.PrivateKey` / `*ecdsa.PrivateKey` / `*rsa.PublicKey` / `*ecdsa.PublicKey` /
nil / other), the RSA modulus byte size (`key.Size()`), and whether the RSA public
component `N` is nil. -/
inductive KeyMaterial where
  | rsaPrivateKey (size : Nat) (nIsNil : Bool)
  | ecdsaPrivateKey
  | rsaPublicKey (size : Nat) (nIsNil : Bool)
  | ecdsaPublicKey
  | nilKey
  | otherKey
  deriving DecidableEq, Repr

/-- What the validator observes of a `schema.X509CertificateChain`:
`HasCertificates()`, `EqualKey(key)` for the JWK's own key, and whether
`Validate()` returns nil. -/
structure CertChain where
  hasCerts : Bool
  equalKey : Bool
  valid : Bool
  deriving DecidableEq, Repr

/-- The `Use`/`Algorithm` pair of `JWKProperties` as returned by `schemaJWKGetProperties`. -/
structure JWKProps where
  use : String
  alg : String
  deriving DecidableEq, Repr

/-- `schema.JWK` restricted to the fields the validator consults.

`thumbprint` — Modelled from the spec: the result of `jwkCalculateThumbprint`
("compute it as a cryptographic thumbprint of the key material; if computation
fails, record an error and skip", §4.1); that helper is not under `src/`, so the
outcome is carried as a field (`none` = computation failure).

`props` — Modelled from the spec: the result of `schemaJWKGetProperties`
("default to a value derived from key introspection", §4.1); that helper is not
under `src/`, so the outcome is carried as a field (`none` = error). -/
structure JWK where
  keyID : String
  algorithm : String
  use : String
  key : KeyMaterial
  certificateChain : CertChain
  thumbprint : Option String
  props : Option JWKProps
  deriving DecidableEq, Repr

/-- Tagged counterpart of the validator's pushed errors (`validator.Push`).
Constructors mirror the distinct `errFmt...` format strings used by
`identity_providers.go`; `i` carries the 0-based index of the offending entry. -/
inductive VErr where
  | policyInvalidName
  | policyInvalidNameStandard (name : String)
  | policyInvalidDefaultPolicy (name : String)
  | policyMissingRules (name : String)
  | policyRuleInvalidPolicy (name : String) (i : Nat)
  | policyRuleMissingSubject (name : String) (i : Nat)
  | privateKeysInvalid (i : Nat)
  | privateKeysCalcThumbprint (i : Nat)
  | privateKeysKeyIDLength (i : Nat)
  | privateKeysAttributeNotUnique (i : Nat)
  | privateKeysKeyIDNotValid (i : Nat)
  | privateKeysProperties (i : Nat)
  | privateKeysInvalidOptionUse (i : Nat)
  | privateKeysInvalidOptionAlg (i : Nat)
  | privateKeysRSAKeyLessThan2048Bits (i : Nat)
  | privateKeysKeyNotRSAOrECDSA (i : Nat)
  | privateKeysKeyCertificateMismatch (i : Nat)
  | privateKeysCertificateChainInvalid (i : Nat)
  | privateKeysNoRS256
  | clientPublicKeysBothURIAndValues
  | clientPublicKeysURIInvalidScheme
  | clientPublicKeysMissingKeyID (i : Nat)
  | clientPublicKeysProperties (i : Nat)
  | clientPublicKeysInvalidOptionUse (i : Nat)
  | clientPublicKeysInvalidOptionAlg (i : Nat)
  | clientPublicKeysMissingKey (i : Nat)
  | clientPublicKeysKeyMalformed (i : Nat)
  | clientPublicKeysRSAKeyLessThan2048Bits (i : Nat)
  | clientPublicKeysKeyNotRSAOrECDSA (i : Nat)
  | clientPublicKeysCertificateChainKeyMismatch (i : Nat)
  | clientPublicKeysCertificateChainInvalid (i : Nat)
  | clientPublicKeysROSAMissingAlgorithm
  | clientInvalidValue (attr : String)
  | clientInvalidTokenEndpointAuthMethod
  | clientInvalidTokenEndpointAuthMethodPublic
  | clientInvalidSecret
  | clientInvalidSecretNotPlainText
  | clientPublicInvalidSecret
  | clientPublicInvalidSecretClientAuthMethod
  | clientInvalidTokenEndpointAuthSigAlg
  | clientInvalidTokenEndpointAuthSigAlgMissingPrivateKeyJWT
  | clientInvalidPublicKeysPrivateKeyJWT
  | clientInvalidTokenEndpointAuthSigAlgReg
  | clientInvalidConsentMode
  deriving DecidableEq, Repr

/-- Tagged counterpart of the validator's pushed warnings (`validator.PushWarning`). -/
inductive VWarn where
  | clientInvalidSecretPlainText
  deriving DecidableEq, Repr

/-- Attribute tag for the ID Token signing algorithm config key. -/
def attrOIDCIDTokenSigAlg : String := "id_token_signed_response_alg"

/-- Attribute tag for the ID Token signing key ID config key. -/
def attrOIDCIDTokenSigKID : String := "id_token_signed_response_key_id"

/-- Attribute tag for the Access Token signing algorithm config key. -/
def attrOIDCAccessTokenSigAlg : String := "access_token_signed_response_alg"

/-- Attribute tag for the Access Token signing key ID config key. -/
def attrOIDCAccessTokenSigKID : String := "access_token_signed_response_key_id"

/-- Attribute tag for the Userinfo signing algorithm config key. -/
def attrOIDCUsrSigAlg : String := "userinfo_signed_response_alg"

/-- Attribute tag for the Userinfo signing key ID config key. -/
def attrOIDCUsrSigKID : String := "userinfo_signed_response_key_id"

/-- Attribute tag for the Introspection signing algorithm config key. -/
def attrOIDCIntrospectionSigAlg : String := "introspection_signed_response_alg"

/-- Attribute tag for the Introspection signing key ID config key. -/
def attrOIDCIntrospectionSigKID : String := "introspection_signed_response_key_id"

/-- Attribute tag for the authorization (JARM) signing algorithm config key. -/
def attrOIDCAuthorizationSigAlg : String := "authorization_signed_response_alg"

/-- Attribute tag for the authorization (JARM) signing key ID config key. -/
def attrOIDCAuthorizationSigKID : String := "authorization_signed_response_key_id"

/-- Attribute tag for the token endpoint auth method config key. -/
def attrOIDCTokenAuthMethod : String := "token_endpoint_auth_method"

/-- The slice of the shared configuration consulted by the per-client signing
resolutions: the issuer keys (`config.IssuerPrivateKeys`) and the discovery sets
(`config.Discovery.ResponseObjectSigningAlgs` / `.ResponseObjectSigningKeyIDs`). -/
structure OIDCSigningContext where
  issuerPrivateKeys : List JWK
  responseObjectSigningAlgs : List String
  responseObjectSigningKeyIDs : List String
  deriving DecidableEq, Repr

/-- `validateOIDCClientAlgKIDDefault`: the shared Algorithm/KeyID resolution.
Mirrors the two `switch` statements of the source: both present → as-is; both
absent → apply the type default (returning when it is empty); then with only the
algorithm present adopt the key ID of the first issuer key with that algorithm,
and with only the key ID present adopt the algorithm of the first issuer key
with that key ID. -/
def validateOIDCClientAlgKIDDefault (cfg : OIDCSigningContext)
    (algCurrent kidCurrent algDefault : String) : String × String :=
  let alg := algCurrent
  let kid := kidCurrent
  if !(alg == "") && !(kid == "") then
    (alg, kid)
  else if (alg == "") && (kid == "") && (algDefault == "") then
    (alg, kid)
  else
    let alg := if (alg == "") && (kid == "") then algDefault else alg
    if (alg == "") && (kid == "") then
      (alg, kid)
    else if kid == "" then
      match cfg.issuerPrivateKeys.find? (fun jwk => alg == jwk.algorithm) with
      | some jwk => (alg, jwk.keyID)
      | none => (alg, kid)
    else if alg == "" then
      match cfg.issuerPrivateKeys.find? (fun jwk => kid == jwk.keyID) with
      | some jwk => (jwk.algorithm, kid)
      | none => (alg, kid)
    else
      (alg, kid)

/-- The Algorithm/KeyID resolution exactly as claim C3 words it (spec §4.4):
inputs unchanged when both are given; the default algorithm with the first
matching issuer key's key ID (or empty) when both are absent; the first issuer
key's key ID by algorithm when only the algorithm is given; the matching issuer
key's algorithm when only the key ID is given. -/
def algKIDResolutionSpec (cfg : OIDCSigningContext)
    (alg kid algDefault : String) : String × String :=
  if alg ≠ "" ∧ kid ≠ "" then
    (alg, kid)
  else if alg = "" ∧ kid = "" then
    if algDefault = "" then
      (alg, kid)
    else
      (algDefault,
        match cfg.issuerPrivateKeys.find? (fun jwk => jwk.algorithm == algDefault) with
        | some jwk => jwk.keyID
        | none => "")
  else if kid = "" then
    (alg,
      match cfg.issuerPrivateKeys.find? (fun jwk => jwk.algorithm == alg) with
      | some jwk => jwk.keyID
      | none => "")
  else
    (match cfg.issuerPrivateKeys.find? (fun jwk => jwk.keyID == kid) with
     | some jwk => jwk.algorithm
     | none => "",
     kid)

theorem find_beq_comm (keys : List JWK) (a : String) :
    keys.find? (fun jwk => a == jwk.algorithm) = keys.find? (fun jwk => jwk.algorithm == a) := by
  induction keys with
  | nil => rfl
  | cons k ks ih =>
    by_cases h : k.algorithm = a
    · simp [List.find?, h]
    · have h1 : (a == k.algorithm) = false := by
        simp [beq_iff_eq]
        exact fun hh => h hh.symm
      have h2 : (k.algorithm == a) = false := by
        simp [beq_iff_eq]
        exact h
      simp [List.find?, h1, h2, ih]

theorem find_beq_comm_kid (keys : List JWK) (a : String) :
    keys.find? (fun jwk => a == jwk.keyID) = keys.find? (fun jwk => jwk.keyID == a) := by
  induction keys with
  | nil => rfl
  | cons k ks ih =>
    by_cases h : k.keyID = a
    · simp [List.find?, h]
    · have h1 : (a == k.keyID) = false := by
        simp [beq_iff_eq]
        exact fun hh => h hh.symm
      have h2 : (k.keyID == a) = false := by
        simp [beq_iff_eq]
        exact h
      simp [List.find?, h1, h2, ih]

/-- C3: the shared Algorithm/KeyID resolution (`validateOIDCClientAlgKIDDefault`)
computes, for every input, exactly the function described by the specification:
inputs unchanged when both algorithm and key ID are non-empty; the default
algorithm together with the key ID of the first issuer key matching it (or empty)
when both are empty; the first matching issuer key's key ID when only the
algorithm is given; the matching issuer key's algorithm when only the key ID is
given — empty on no match in either direction. -/
theorem c3_alg_kid_resolution (cfg : OIDCSigningContext) (alg kid algDefault : String) :
    validateOIDCClientAlgKIDDefault cfg alg kid algDefault =
      algKIDResolutionSpec cfg alg kid algDefault := by
  unfold validateOIDCClientAlgKIDDefault algKIDResolutionSpec
  by_cases ha : alg = ""
  · by_cases hk : kid = ""
    · subst ha; subst hk
      by_cases hd : algDefault = ""
      · simp [hd]
      · simp [hd, find_beq_comm]
        cases cfg.issuerPrivateKeys.find? (fun jwk => jwk.algorithm == algDefault) with
        | none => simp
        | some jwk => simp
    · subst ha
      simp [hk, find_beq_comm_kid]
      cases cfg.issuerPrivateKeys.find? (fun jwk => jwk.keyID == kid) with
      | none => simp
      | some jwk => simp
  · by_cases hk : kid = ""
    · subst hk
      simp [ha, find_beq_comm]
      cases cfg.issuerPrivateKeys.find? (fun jwk => jwk.algorithm == alg) with
      | none => simp
      | some jwk => simp
    · simp [ha, hk]

/-- Modelled from the spec: `getResponseObjectAlgFromKID` is not under `src/`; per §4.4
"on success the algorithm is overwritten with that key's actual algorithm (key ID is
authoritative)" it returns the algorithm of the issuer key whose key ID matches, and
the current algorithm when no issuer key matches. -/
def getResponseObjectAlgFromKID (cfg : OIDCSigningContext) (kid alg : String) : String :=
  match cfg.issuerPrivateKeys.find? (fun jwk => jwk.keyID == kid) with
  | some jwk => jwk.algorithm
  | none => alg

/-- Result of one per-response-type signing resolution: the client's final
`(alg, keyID)` pair, the discovery-wide `JWTResponseAccessTokens` flag after the
call, and the errors pushed by the call. -/
structure ClientSigningResult where
  alg : String
  kid : String
  jwtResponseAccessTokens : Bool
  errs : List VErr
  deriving DecidableEq, Repr

/-- `validateOIDDClientSigningAlgsIDToken`: resolve, then with no key ID accept the
empty and `RS256` algorithms implicitly and otherwise require membership in the
discovery algorithm set; with a key ID require membership in the discovery key-ID
set and on success overwrite the algorithm from the key. -/
def validateOIDDClientSigningAlgsIDToken (cfg : OIDCSigningContext)
    (algIn kidIn algDefault : String) (flag : Bool) : ClientSigningResult :=
  let (alg, kid) := validateOIDCClientAlgKIDDefault cfg algIn kidIn algDefault
  if kid == "" then
    if alg == "" || alg == SigningAlgRSAUsingSHA256 then
      ⟨alg, kid, flag, []⟩
    else if IsStringInSlice alg cfg.responseObjectSigningAlgs then
      ⟨alg, kid, flag, []⟩
    else
      ⟨alg, kid, flag, [.clientInvalidValue attrOIDCIDTokenSigAlg]⟩
  else
    if !(IsStringInSlice kid cfg.responseObjectSigningKeyIDs) then
      ⟨alg, kid, flag, [.clientInvalidValue attrOIDCIDTokenSigKID]⟩
    else
      ⟨getResponseObjectAlgFromKID cfg kid alg, kid, flag, []⟩

/-- `validateOIDDClientSigningAlgsAccessToken`: like the ID Token resolution but
`none` is also implicitly accepted, and both success paths that resolve to a
non-default algorithm set `Discovery.JWTResponseAccessTokens`. -/
def validateOIDDClientSigningAlgsAccessToken (cfg : OIDCSigningContext)
    (algIn kidIn algDefault : String) (flag : Bool) : ClientSigningResult :=
  let (alg, kid) := validateOIDCClientAlgKIDDefault cfg algIn kidIn algDefault
  if kid == "" then
    if alg == "" || alg == SigningAlgNone || alg == SigningAlgRSAUsingSHA256 then
      ⟨alg, kid, flag, []⟩
    else if IsStringInSlice alg cfg.responseObjectSigningAlgs then
      ⟨alg, kid, true, []⟩
    else
      ⟨alg, kid, flag, [.clientInvalidValue attrOIDCAccessTokenSigAlg]⟩
  else
    if !(IsStringInSlice kid cfg.responseObjectSigningKeyIDs) then
      ⟨alg, kid, flag, [.clientInvalidValue attrOIDCAccessTokenSigKID]⟩
    else
      ⟨getResponseObjectAlgFromKID cfg kid alg, kid, true, []⟩

/-- `validateOIDDClientSigningAlgsUserInfo`: the Userinfo signing selection
(source lines 961-983); `none` and `RS256` implicitly accepted, no flag updates. -/
def validateOIDDClientSigningAlgsUserInfo (cfg : OIDCSigningContext)
    (algIn kidIn algDefault : String) (flag : Bool) : ClientSigningResult :=
  let (alg, kid) := validateOIDCClientAlgKIDDefault cfg algIn kidIn algDefault
  if kid == "" then
    if alg == "" || alg == SigningAlgNone || alg == SigningAlgRSAUsingSHA256 then
      ⟨alg, kid, flag, []⟩
    else if IsStringInSlice alg cfg.responseObjectSigningAlgs then
      ⟨alg, kid, flag, []⟩
    else
      ⟨alg, kid, flag, [.clientInvalidValue attrOIDCUsrSigAlg]⟩
  else
    if !(IsStringInSlice kid cfg.responseObjectSigningKeyIDs) then
      ⟨alg, kid, flag, [.clientInvalidValue attrOIDCUsrSigKID]⟩
    else
      ⟨getResponseObjectAlgFromKID cfg kid alg, kid, flag, []⟩

/-- `validateOIDDClientSigningAlgsIntrospection`: same shape as the Access Token
resolution (with the `introspection_signed_response_*` attributes) but it never
touches `Discovery.JWTResponseAccessTokens`. -/
def validateOIDDClientSigningAlgsIntrospection (cfg : OIDCSigningContext)
    (algIn kidIn algDefault : String) (flag : Bool) : ClientSigningResult :=
  let (alg, kid) := validateOIDCClientAlgKIDDefault cfg algIn kidIn algDefault
  if kid == "" then
    if alg == "" || alg == SigningAlgNone || alg == SigningAlgRSAUsingSHA256 then
      ⟨alg, kid, flag, []⟩
    else if IsStringInSlice alg cfg.responseObjectSigningAlgs then
      ⟨alg, kid, flag, []⟩
    else
      ⟨alg, kid, flag, [.clientInvalidValue attrOIDCIntrospectionSigAlg]⟩
  else
    if !(IsStringInSlice kid cfg.responseObjectSigningKeyIDs) then
      ⟨alg, kid, flag, [.clientInvalidValue attrOIDCIntrospectionSigKID]⟩
    else
      ⟨getResponseObjectAlgFromKID cfg kid alg, kid, flag, []⟩

/-- `validateOIDDClientSigningAlgsJARM`: the authorization-response (JARM)
resolution; `none` and `RS256` implicitly accepted, no flag updates. -/
def validateOIDDClientSigningAlgsJARM (cfg : OIDCSigningContext)
    (algIn kidIn algDefault : String) (flag : Bool) : ClientSigningResult :=
  let (alg, kid) := validateOIDCClientAlgKIDDefault cfg algIn kidIn algDefault
  if kid == "" then
    if alg == "" || alg == SigningAlgNone || alg == SigningAlgRSAUsingSHA256 then
      ⟨alg, kid, flag, []⟩
    else if IsStringInSlice alg cfg.responseObjectSigningAlgs then
      ⟨alg, kid, flag, []⟩
    else
      ⟨alg, kid, flag, [.clientInvalidValue attrOIDCAuthorizationSigAlg]⟩
  else
    if !(IsStringInSlice kid cfg.responseObjectSigningKeyIDs) then
      ⟨alg, kid, flag, [.clientInvalidValue attrOIDCAuthorizationSigKID]⟩
    else
      ⟨getResponseObjectAlgFromKID cfg kid alg, kid, flag, []⟩

/-- The condition under which the Access Token resolution marks JWT-format access
tokens as in use: a resolved key ID present in the discovery key-ID set, or a
resolved algorithm other than the implicitly accepted ones that is present in the
discovery algorithm set. -/
def accessTokenNonDefaultAlg (cfg : OIDCSigningContext) (alg kid : String) : Bool :=
  if kid == "" then
    !(alg == "" || alg == SigningAlgNone || alg == SigningAlgRSAUsingSHA256) &&
      IsStringInSlice alg cfg.responseObjectSigningAlgs
  else
    IsStringInSlice kid cfg.responseObjectSigningKeyIDs

theorem isStringInSlice_iff (s : String) (l : List String) :
    IsStringInSlice s l = true ↔ s ∈ l := by
  simp [IsStringInSlice, List.contains, List.elem_iff]

/-- An ECDSA issuer key with key ID `kid1` and algorithm `ES256`, used as a concrete
configuration for the signing-resolution theorems. -/
def jwkES256 : JWK :=
  { keyID := "kid1", algorithm := "ES256", use := "sig", key := .ecdsaPrivateKey,
    certificateChain := ⟨false, true, true⟩, thumbprint := some "t1",
    props := some ⟨"sig", "ES256"⟩ }

/-- A signing context holding the single issuer key `jwkES256`, with matching
discovery sets. -/
def ctxES256 : OIDCSigningContext :=
  { issuerPrivateKeys := [jwkES256],
    responseObjectSigningAlgs := [SigningAlgRSAUsingSHA256, "ES256"],
    responseObjectSigningKeyIDs := ["kid1"] }

/-- C2 counterexample: for the client Introspection signing selection with key ID
`kid1`, the resolution yields the explicit key ID `kid1` which exists in the
discovery key-ID set — per the claim this must set the discovery-wide
JWT-format-access-tokens flag to true — yet `validateOIDDClientSigningAlgsIntrospection`
leaves the flag false.  The Introspection resolution never writes
`Discovery.JWTResponseAccessTokens`. -/
theorem c2_counterexample :
    (validateOIDCClientAlgKIDDefault ctxES256 "" "kid1" SigningAlgNone).2 = "kid1" ∧
    "kid1" ∈ ctxES256.responseObjectSigningKeyIDs ∧
    (validateOIDDClientSigningAlgsIntrospection ctxES256 "" "kid1" SigningAlgNone
        false).jwtResponseAccessTokens = false := by
  refine ⟨by decide, by decide, by decide⟩

/-- C2 (amended): only the Access Token signing resolution sets the discovery-wide
JWT-format-access-tokens flag — it becomes true exactly when it was already true or
the resolution yields a non-default algorithm (an explicit key ID present in the
discovery key-ID set, or an algorithm other than empty, `none`, `RS256` that is
present in the discovery algorithm set); the Introspection signing resolution
leaves the flag unchanged for every input. -/
theorem c2_amended_access_token_flag (cfg : OIDCSigningContext)
    (algIn kidIn algDefault : String) (flag : Bool) :
    ((validateOIDDClientSigningAlgsAccessToken cfg algIn kidIn algDefault
        flag).jwtResponseAccessTokens =
      (flag || accessTokenNonDefaultAlg cfg
        (validateOIDCClientAlgKIDDefault cfg algIn kidIn algDefault).1
        (validateOIDCClientAlgKIDDefault cfg algIn kidIn algDefault).2)) ∧
    (validateOIDDClientSigningAlgsIntrospection cfg algIn kidIn algDefault
        flag).jwtResponseAccessTokens = flag := by
  cases hp : validateOIDCClientAlgKIDDefault cfg algIn kidIn algDefault with
  | mk alg kid =>
    unfold validateOIDDClientSigningAlgsAccessToken
      validateOIDDClientSigningAlgsIntrospection accessTokenNonDefaultAlg
    rw [hp]
    constructor
    · by_cases hk : (kid == "") = true
      · simp only [hk, if_true, if_pos]
        by_cases ha : (alg == "" || alg == SigningAlgNone ||
            alg == SigningAlgRSAUsingSHA256) = true
        · simp [ha]
        · simp only [Bool.not_eq_true] at ha
          by_cases hm : IsStringInSlice alg cfg.responseObjectSigningAlgs = true
          · simp [ha, hm]
          · simp only [Bool.not_eq_true] at hm
            simp [ha, hm]
      · simp only [Bool.not_eq_true] at hk
        by_cases hm : IsStringInSlice kid cfg.responseObjectSigningKeyIDs = true
        · simp [hk, hm]
        · simp only [Bool.not_eq_true] at hm
          simp [hk, hm]
    · by_cases hk : (kid == "") = true
      · simp only [hk, if_true, if_pos]
        by_cases ha : (alg == "" || alg == SigningAlgNone ||
            alg == SigningAlgRSAUsingSHA256) = true
        · simp [ha]
        · simp only [Bool.not_eq_true] at ha
          by_cases hm : IsStringInSlice alg cfg.responseObjectSigningAlgs = true
          · simp [ha, hm]
          · simp only [Bool.not_eq_true] at hm
            simp [ha, hm]
      · simp only [Bool.not_eq_true] at hk
        by_cases hm : IsStringInSlice kid cfg.responseObjectSigningKeyIDs = true
        · simp [hk, hm]
        · simp only [Bool.not_eq_true] at hm
          simp [hk, hm]

/-- C4: for each of the five per-response-type signing selections — ID Token,
Access Token, Userinfo, Introspection and authorization-response (JARM) — if the
resolution yields a non-empty key ID, an error is recorded exactly when that key
ID is absent from the discovery key-ID set, and when it is present the selection's
algorithm is overwritten with the matching issuer key's actual algorithm; if the
resolution yields no key ID but a non-empty algorithm that is not one of the type's
implicitly-valid values (`RS256` for ID Token; `none` and `RS256` for the other
four), an error is recorded exactly when the algorithm is absent from the discovery
algorithm set. -/
theorem c4_signing_selection_errors (cfg : OIDCSigningContext)
    (algIn kidIn algDefault : String) (flag : Bool) :
    (((validateOIDCClientAlgKIDDefault cfg algIn kidIn algDefault).2 ≠ "") →
      (((validateOIDDClientSigningAlgsIDToken cfg algIn kidIn algDefault flag).errs ≠ [] ↔
          (validateOIDCClientAlgKIDDefault cfg algIn kidIn algDefault).2 ∉
            cfg.responseObjectSigningKeyIDs) ∧
       ((validateOIDDClientSigningAlgsAccessToken cfg algIn kidIn algDefault flag).errs ≠ [] ↔
          (validateOIDCClientAlgKIDDefault cfg algIn kidIn algDefault).2 ∉
            cfg.responseObjectSigningKeyIDs) ∧
       ((validateOIDDClientSigningAlgsUserInfo cfg algIn kidIn algDefault flag).errs ≠ [] ↔
          (validateOIDCClientAlgKIDDefault cfg algIn kidIn algDefault).2 ∉
            cfg.responseObjectSigningKeyIDs) ∧
       ((validateOIDDClientSigningAlgsIntrospection cfg algIn kidIn algDefault flag).errs ≠ [] ↔
          (validateOIDCClientAlgKIDDefault cfg algIn kidIn algDefault).2 ∉
            cfg.responseObjectSigningKeyIDs) ∧
       ((validateOIDDClientSigningAlgsJARM cfg algIn kidIn algDefault flag).errs ≠ [] ↔
          (validateOIDCClientAlgKIDDefault cfg algIn kidIn algDefault).2 ∉
            cfg.responseObjectSigningKeyIDs) ∧
       (∀ jwk, cfg.issuerPrivateKeys.find?
            (fun j => j.keyID ==
              (validateOIDCClientAlgKIDDefault cfg algIn kidIn algDefault).2) = some jwk →
          (validateOIDCClientAlgKIDDefault cfg algIn kidIn algDefault).2 ∈
            cfg.responseObjectSigningKeyIDs →
          (validateOIDDClientSigningAlgsIDToken cfg algIn kidIn algDefault flag).alg =
            jwk.algorithm ∧
          (validateOIDDClientSigningAlgsAccessToken cfg algIn kidIn algDefault flag).alg =
            jwk.algorithm ∧
          (validateOIDDClientSigningAlgsUserInfo cfg algIn kidIn algDefault flag).alg =
            jwk.algorithm ∧
          (validateOIDDClientSigningAlgsIntrospection cfg algIn kidIn algDefault flag).alg =
            jwk.algorithm ∧
          (validateOIDDClientSigningAlgsJARM cfg algIn kidIn algDefault flag).alg =
            jwk.algorithm))) ∧
    (((validateOIDCClientAlgKIDDefault cfg algIn kidIn algDefault).2 = "") →
      ((validateOIDCClientAlgKIDDefault cfg algIn kidIn algDefault).1 ≠ "") →
      (((validateOIDCClientAlgKIDDefault cfg algIn kidIn algDefault).1 ≠
            SigningAlgRSAUsingSHA256 →
        ((validateOIDDClientSigningAlgsIDToken cfg algIn kidIn algDefault flag).errs ≠ [] ↔
          (validateOIDCClientAlgKIDDefault cfg algIn kidIn algDefault).1 ∉
            cfg.responseObjectSigningAlgs)) ∧
       ((validateOIDCClientAlgKIDDefault cfg algIn kidIn algDefault).1 ≠
            SigningAlgRSAUsingSHA256 →
        (validateOIDCClientAlgKIDDefault cfg algIn kidIn algDefault).1 ≠ SigningAlgNone →
        (((validateOIDDClientSigningAlgsAccessToken cfg algIn kidIn algDefault flag).errs ≠ [] ↔
            (validateOIDCClientAlgKIDDefault cfg algIn kidIn algDefault).1 ∉
              cfg.responseObjectSigningAlgs) ∧
         ((validateOIDDClientSigningAlgsUserInfo cfg algIn kidIn algDefault flag).errs ≠ [] ↔
            (validateOIDCClientAlgKIDDefault cfg algIn kidIn algDefault).1 ∉
              cfg.responseObjectSigningAlgs) ∧
         ((validateOIDDClientSigningAlgsIntrospection cfg algIn kidIn algDefault
              flag).errs ≠ [] ↔
            (validateOIDCClientAlgKIDDefault cfg algIn kidIn algDefault).1 ∉
              cfg.responseObjectSigningAlgs) ∧
         ((validateOIDDClientSigningAlgsJARM cfg algIn kidIn algDefault flag).errs ≠ [] ↔
            (validateOIDCClientAlgKIDDefault cfg algIn kidIn algDefault).1 ∉
              cfg.responseObjectSigningAlgs))))) := by
  cases hp : validateOIDCClientAlgKIDDefault cfg algIn kidIn algDefault with
  | mk alg kid =>
    unfold validateOIDDClientSigningAlgsIDToken validateOIDDClientSigningAlgsAccessToken
      validateOIDDClientSigningAlgsUserInfo validateOIDDClientSigningAlgsIntrospection
      validateOIDDClientSigningAlgsJARM
    rw [hp]
    simp only
    constructor
    · intro hkid
      have hk : (kid == "") = false := by simp [hkid]
      by_cases hm : IsStringInSlice kid cfg.responseObjectSigningKeyIDs = true
      · have hmem : kid ∈ cfg.responseObjectSigningKeyIDs := (isStringInSlice_iff _ _).mp hm
        refine ⟨by simp [hk, hm, hmem], by simp [hk, hm, hmem], by simp [hk, hm, hmem],
          by simp [hk, hm, hmem], by simp [hk, hm, hmem], ?_⟩
        intro jwk hfind _
        refine ⟨?_, ?_, ?_, ?_, ?_⟩ <;>
          simp [hk, hm, getResponseObjectAlgFromKID, hfind]
      · simp only [Bool.not_eq_true] at hm
        have hmem : kid ∉ cfg.responseObjectSigningKeyIDs := by
          intro hc
          rw [((isStringInSlice_iff _ _).mpr hc : _)] at hm
          cases hm
        refine ⟨by simp [hk, hm, hmem], by simp [hk, hm, hmem], by simp [hk, hm, hmem],
          by simp [hk, hm, hmem], by simp [hk, hm, hmem], ?_⟩
        intro jwk _ hcon
        exact absurd hcon hmem
    · intro hkid halg
      have hk : (kid == "") = true := by simp [hkid]
      have ha : (alg == "") = false := by simp [halg]
      constructor
      · intro hrs
        have hr : (alg == SigningAlgRSAUsingSHA256) = false := by simp [hrs]
        by_cases hm : IsStringInSlice alg cfg.responseObjectSigningAlgs = true
        · have hmem : alg ∈ cfg.responseObjectSigningAlgs := (isStringInSlice_iff _ _).mp hm
          simp [hk, ha, hr, hm, hmem]
        · simp only [Bool.not_eq_true] at hm
          have hmem : alg ∉ cfg.responseObjectSigningAlgs := by
            intro hc
            rw [((isStringInSlice_iff _ _).mpr hc : _)] at hm
            cases hm
          simp [hk, ha, hr, hm, hmem]
      · intro hrs hnone
        have hr : (alg == SigningAlgRSAUsingSHA256) = false := by simp [hrs]
        have hn : (alg == SigningAlgNone) = false := by simp [hnone]
        by_cases hm : IsStringInSlice alg cfg.responseObjectSigningAlgs = true
        · have hmem : alg ∈ cfg.responseObjectSigningAlgs := (isStringInSlice_iff _ _).mp hm
          refine ⟨?_, ?_, ?_, ?_⟩ <;> simp [hk, ha, hr, hn, hm, hmem]
        · simp only [Bool.not_eq_true] at hm
          have hmem : alg ∉ cfg.responseObjectSigningAlgs := by
            intro hc
            rw [((isStringInSlice_iff _ _).mpr hc : _)] at hm
            cases hm
          refine ⟨?_, ?_, ?_, ?_⟩ <;> simp [hk, ha, hr, hn, hm, hmem]

/-- C4 witness: instantiating the selection theorem at the concrete context
`ctxES256` with an explicit key ID `kid1` yields its concrete consequences for
all five selections. -/
theorem c4_signing_selection_errors_witness :
    ((validateOIDDClientSigningAlgsIDToken ctxES256 "" "kid1" "" false).errs ≠ [] ↔
      "kid1" ∉ ctxES256.responseObjectSigningKeyIDs) ∧
    (validateOIDDClientSigningAlgsIDToken ctxES256 "" "kid1" "" false).alg = "ES256" ∧
    (validateOIDDClientSigningAlgsAccessToken ctxES256 "" "kid1" "" false).alg = "ES256" ∧
    (validateOIDDClientSigningAlgsUserInfo ctxES256 "" "kid1" "" false).alg = "ES256" ∧
    (validateOIDDClientSigningAlgsIntrospection ctxES256 "" "kid1" "" false).alg =
      "ES256" ∧
    (validateOIDDClientSigningAlgsJARM ctxES256 "" "kid1" "" false).alg = "ES256" := by
  have h := (c4_signing_selection_errors ctxES256 "" "kid1" "" false).1 (by decide)
  obtain ⟨h1, _, _, _, _, h6⟩ := h
  have hres : (validateOIDCClientAlgKIDDefault ctxES256 "" "kid1" "").2 = "kid1" := by decide
  have hfind := h6 jwkES256 (by rw [hres]; decide) (by rw [hres]; decide)
  obtain ⟨f1, f2, f3, f4, f5⟩ := hfind
  refine ⟨by rw [hres] at h1; exact h1, ?_, ?_, ?_, ?_, ?_⟩
  · simpa using f1
  · simpa using f2
  · simpa using f3
  · simpa using f4
  · simpa using f5

/-- A rule of a named authorization policy (`schema.IdentityProvidersOpenIDConnectPolicyRule`
restricted to the consulted fields). -/
structure OIDCPolicyRule where
  policy : String
  subjects : List String
  deriving DecidableEq, Repr

/-- A named authorization policy (`schema.IdentityProvidersOpenIDConnectPolicy`). -/
structure OIDCPolicy where
  defaultPolicy : String
  rules : List OIDCPolicyRule
  deriving DecidableEq, Repr

/-- Result of the Authorization Policy Table build step: the normalized policies
(in processing order), `Discovery.AuthorizationPolicies`, and the pushed errors. -/
structure AuthzPoliciesResult where
  policies : List (String × OIDCPolicy)
  discovery : List String
  errs : List VErr
  deriving DecidableEq, Repr

/-- The body of the `for name, policy := range config.AuthorizationPolicies` loop of
`validateOIDCAuthorizationPolicies` for one entry: returns the normalized policy,
whether the name is added to the discovery list, and the pushed errors.
`dflt` mirrors `schema.DefaultOpenIDConnectPolicyConfiguration.DefaultPolicy`. -/
def validateOIDCAuthorizationPolicyEntry (dflt : String) (name : String)
    (policy : OIDCPolicy) : OIDCPolicy × Bool × List VErr :=
  let (add, errsName) :=
    if name == "" then
      (false, [VErr.policyInvalidName])
    else if name == policyOneFactor || name == policyTwoFactor || name == policyDeny then
      (false, [VErr.policyInvalidNameStandard name])
    else
      (true, [])
  let (defaultPolicy, errsDefault) :=
    if policy.defaultPolicy == "" then
      (dflt, [])
    else if policy.defaultPolicy == policyOneFactor ||
        policy.defaultPolicy == policyTwoFactor || policy.defaultPolicy == policyDeny then
      (policy.defaultPolicy, [])
    else
      (policy.defaultPolicy, [VErr.policyInvalidDefaultPolicy name])
  let errsRulesLen := if policy.rules == [] then [VErr.policyMissingRules name] else []
  let ruleStep := fun (i : Nat) (rule : OIDCPolicyRule) =>
    let (rulePolicy, errsRule) :=
      if rule.policy == "" then
        (dflt, [])
      else if rule.policy == policyOneFactor || rule.policy == policyTwoFactor ||
          rule.policy == policyDeny then
        (rule.policy, [])
      else
        (rule.policy, [VErr.policyRuleInvalidPolicy name i])
    let errsSubjects := if rule.subjects == [] then [VErr.policyRuleMissingSubject name i] else []
    ({ rule with policy := rulePolicy }, errsRule ++ errsSubjects)
  let rules := (policy.rules.enum.map (fun p => ruleStep p.1 p.2))
  ({ defaultPolicy := defaultPolicy, rules := rules.map Prod.fst },
   add,
   errsName ++ errsDefault ++ errsRulesLen ++ (rules.map Prod.snd).flatten)

/-- A configured policy name reaches the discovery list exactly when it is neither
blank nor one of the three reserved names. -/
def policyNameAdded (n : String) : Bool :=
  !(n == "" || n == policyOneFactor || n == policyTwoFactor || n == policyDeny)

/-- `validateOIDCAuthorizationPolicies`: initializes
`Discovery.AuthorizationPolicies` to the two built-in policies, then processes the
configured policies in order, appending each name to the discovery list unless it
is blank or reserved.  The Go `map` iteration is modelled as an association list
processed in list order. -/
def validateOIDCAuthorizationPolicies (dflt : String)
    (policiesIn : List (String × OIDCPolicy)) : AuthzPoliciesResult :=
  policiesIn.foldl
    (fun st p =>
      let (p', add, errs) := validateOIDCAuthorizationPolicyEntry dflt p.1 p.2
      { policies := st.policies ++ [(p.1, p')]
        discovery := if add then st.discovery ++ [p.1] else st.discovery
        errs := st.errs ++ errs })
    { policies := [], discovery := [policyOneFactor, policyTwoFactor], errs := [] }

theorem authzPolicies_foldl_discovery (dflt : String) (ps : List (String × OIDCPolicy))
    (st : AuthzPoliciesResult) :
    (ps.foldl
      (fun st p =>
        let (p', add, errs) := validateOIDCAuthorizationPolicyEntry dflt p.1 p.2
        { policies := st.policies ++ [(p.1, p')]
          discovery := if add then st.discovery ++ [p.1] else st.discovery
          errs := st.errs ++ errs }) st).discovery =
      st.discovery ++ (ps.map Prod.fst).filter policyNameAdded := by
  induction ps generalizing st with
  | nil => simp
  | cons p ps ih =>
    rw [List.foldl_cons, ih]
    by_cases h0 : (p.1 == "") = true
    · have hpred : policyNameAdded p.1 = false := by simp [policyNameAdded, h0]
      simp only [validateOIDCAuthorizationPolicyEntry, h0]
      simp [h0, List.filter_cons, hpred]
    · simp only [Bool.not_eq_true] at h0
      by_cases h1 : (p.1 == policyOneFactor || p.1 == policyTwoFactor ||
          p.1 == policyDeny) = true
      · have hpred : policyNameAdded p.1 = false := by
          have h1' := h1
          simp only [Bool.or_eq_true, beq_iff_eq] at h1'
          rcases h1' with (h | h) | h <;> simp only [policyNameAdded, h] <;> decide
        simp only [validateOIDCAuthorizationPolicyEntry, h0, h1]
        simp [h0, h1, List.filter_cons, hpred]
      · simp only [Bool.not_eq_true] at h1
        have hpred : policyNameAdded p.1 = true := by simp [policyNameAdded, h0, h1]
        simp only [validateOIDCAuthorizationPolicyEntry, h0, h1]
        simp [h0, h1, List.filter_cons, hpred, List.append_assoc]

theorem authzPolicies_foldl_errs_mono (dflt : String) (ps : List (String × OIDCPolicy))
    (st : AuthzPoliciesResult) (e : VErr) (he : e ∈ st.errs) :
    e ∈ (ps.foldl
      (fun st p =>
        let (p', add, errs) := validateOIDCAuthorizationPolicyEntry dflt p.1 p.2
        { policies := st.policies ++ [(p.1, p')]
          discovery := if add then st.discovery ++ [p.1] else st.discovery
          errs := st.errs ++ errs }) st).errs := by
  induction ps generalizing st with
  | nil => simpa
  | cons p ps ih =>
    rw [List.foldl_cons]
    exact ih _ (by simp [he])

/-- C1 counterexample: with no user-defined policies at all, the discovery
policy-name list produced by the Authorization Policy Table build step is exactly
`[one_factor, two_factor]` — the reserved name `deny` is not present, contradicting
the claim that all three reserved names are always present. -/
theorem c1_counterexample :
    policyDeny ∉ (validateOIDCAuthorizationPolicies policyTwoFactor []).discovery ∧
    (validateOIDCAuthorizationPolicies policyTwoFactor []).discovery =
      [policyOneFactor, policyTwoFactor] := by
  refine ⟨by decide, by decide⟩

/-- C1 (amended): after the Authorization Policy Table build step the reserved
names `one_factor` and `two_factor` are always present in the discovery
policy-name list regardless of user configuration (`deny` is valid as a reference
but never added to the list); the discovery list is exactly the two built-ins
followed by the configured names that are neither blank nor reserved; and a
user-defined policy whose name equals any of the three reserved names produces an
error and is excluded from the discovery list. -/
theorem c1_amended_reserved_policy_names (dflt : String)
    (policiesIn : List (String × OIDCPolicy)) :
    policyOneFactor ∈ (validateOIDCAuthorizationPolicies dflt policiesIn).discovery ∧
    policyTwoFactor ∈ (validateOIDCAuthorizationPolicies dflt policiesIn).discovery ∧
    (validateOIDCAuthorizationPolicies dflt policiesIn).discovery =
      [policyOneFactor, policyTwoFactor] ++
        (policiesIn.map Prod.fst).filter policyNameAdded ∧
    (∀ name policy, (name, policy) ∈ policiesIn →
      (name = policyOneFactor ∨ name = policyTwoFactor ∨ name = policyDeny) →
      VErr.policyInvalidNameStandard name ∈
        (validateOIDCAuthorizationPolicies dflt policiesIn).errs ∧
      name ∉ (policiesIn.map Prod.fst).filter policyNameAdded) := by
  have hdisc := authzPolicies_foldl_discovery dflt policiesIn
    { policies := [], discovery := [policyOneFactor, policyTwoFactor], errs := [] }
  refine ⟨?_, ?_, ?_, ?_⟩
  · rw [validateOIDCAuthorizationPolicies, hdisc]; simp
  · rw [validateOIDCAuthorizationPolicies, hdisc]; simp
  · rw [validateOIDCAuthorizationPolicies, hdisc]
  · intro name policy hmem hres
    constructor
    · have hname : (name == policyOneFactor || name == policyTwoFactor ||
          name == policyDeny) = true := by
        rcases hres with h | h | h <;> subst h <;> decide
      have hblank : (name == "") = false := by
        rcases hres with h | h | h <;> subst h <;> decide
      obtain ⟨l1, l2, hsplit⟩ := List.append_of_mem hmem
      rw [validateOIDCAuthorizationPolicies, hsplit, List.foldl_append, List.foldl_cons]
      apply authzPolicies_foldl_errs_mono
      simp only [validateOIDCAuthorizationPolicyEntry, hblank, hname]
      simp [hblank, hname]
    · intro hc
      have := List.of_mem_filter hc
      rcases hres with h | h | h <;> simp [policyNameAdded, h] at this

/-- C1 amended witness: a user-defined policy named `deny` is rejected with the
reserved-name error and excluded, while the two built-ins stay present. -/
theorem c1_amended_reserved_policy_names_witness :
    policyOneFactor ∈ (validateOIDCAuthorizationPolicies policyTwoFactor
      [(policyDeny, ⟨"", []⟩)]).discovery ∧
    VErr.policyInvalidNameStandard policyDeny ∈
      (validateOIDCAuthorizationPolicies policyTwoFactor
        [(policyDeny, ⟨"", []⟩)]).errs := by
  have h := c1_amended_reserved_policy_names policyTwoFactor [(policyDeny, ⟨"", []⟩)]
  exact ⟨h.1, (h.2.2.2 policyDeny ⟨"", []⟩ (by simp) (Or.inr (Or.inr rfl))).1⟩

/-- Modelled from the spec: `reOpenIDConnectKID` is not under `src/`; per §4.1 the
key ID "must match pattern `^[a-zA-Z0-9]{1,100}$`". -/
def reOpenIDConnectKIDMatch (s : String) : Bool :=
  decide (1 ≤ s.length) && decide (s.length ≤ 100) && s.all (fun c => c.isAlphanum)

/-- Whether the key material is an `*rsa.PrivateKey` whose `PublicKey.N` is nil
(the line-153 guard of `validateOIDCIssuerPrivateKeys`). -/
def isRSAPrivateKeyNilN : KeyMaterial → Bool
  | .rsaPrivateKey _ nIsNil => nIsNil
  | _ => false

/-- Mutable state threaded through the `validateOIDCIssuerPrivateKeys` loop:
`Discovery.ResponseObjectSigningKeyIDs` (pre-allocated to the key count, slots
assigned by index), `Discovery.ResponseObjectSigningAlgs`,
`Discovery.DefaultKeyIDs` (an association list) and the pushed errors. -/
structure IssuerKeysState where
  kidArr : List String
  algs : List String
  defaultKeyIDs : List (String × String)
  errs : List VErr
  deriving DecidableEq, Repr

/-- `validateOIDCIssuerPrivateKeysUseAlg`: defaults `use` from the introspected
properties and requires `sig` otherwise; defaults `algorithm` from the properties
(the Go `fallthrough` makes the default-key-ID assignment run in that case
regardless of validity) and requires membership in the supported set otherwise;
registers the first key ID seen per algorithm as that algorithm's default; appends
any non-empty algorithm to the discovery algorithm list if not already present. -/
def validateOIDCIssuerPrivateKeysUseAlg (i : Nat) (props : JWKProps) (k : JWK)
    (st : IssuerKeysState) : JWK × IssuerKeysState :=
  let (use, errsUse) :=
    if k.use == "" then
      (props.use, [])
    else if k.use == KeyUseSignature then
      (k.use, [])
    else
      (k.use, [VErr.privateKeysInvalidOptionUse i])
  let k := { k with use := use }
  let algWasEmpty := k.algorithm == ""
  let alg := if algWasEmpty then props.alg else k.algorithm
  let k := { k with algorithm := alg }
  let algAccepted := algWasEmpty || IsStringInSlice alg validOIDCIssuerJWKSigningAlgs
  let errsAlg := if algAccepted then [] else [VErr.privateKeysInvalidOptionAlg i]
  let defaultKeyIDs :=
    if algAccepted && (!(k.keyID == "") && !(alg == "")) &&
        (st.defaultKeyIDs.find? (fun p => p.1 == alg)).isNone then
      st.defaultKeyIDs ++ [(alg, k.keyID)]
    else
      st.defaultKeyIDs
  let algs :=
    if !(alg == "") && !(IsStringInSlice alg st.algs) then
      st.algs ++ [alg]
    else
      st.algs
  (k, { st with errs := st.errs ++ errsUse ++ errsAlg,
                defaultKeyIDs := defaultKeyIDs, algs := algs })

/-- `validateOIDCIssuerPrivateKeyPair`: key-type/size checks (RSA below 256 bytes =
2048 bits is an error, ECDSA accepted, anything else an error) followed by the
certificate-chain key-match and validity checks. -/
def validateOIDCIssuerPrivateKeyPair (i : Nat) (k : JWK) (st : IssuerKeysState) :
    IssuerKeysState :=
  let (checkEqualKey, errsKey) :=
    match k.key with
    | .rsaPrivateKey size _ =>
      if size < 256 then
        (false, [VErr.privateKeysRSAKeyLessThan2048Bits i])
      else
        (true, [])
    | .ecdsaPrivateKey => (true, [])
    | _ => (false, [VErr.privateKeysKeyNotRSAOrECDSA i])
  let errsChain :=
    if k.certificateChain.hasCerts then
      (if checkEqualKey && !k.certificateChain.equalKey then
        [VErr.privateKeysKeyCertificateMismatch i]
      else []) ++
      (if k.certificateChain.valid then [] else [VErr.privateKeysCertificateChainInvalid i])
    else
      []
  { st with errs := st.errs ++ errsKey ++ errsChain }

/-- The key-ID resolution part of the loop body (source lines 159-168): an empty
key ID becomes the thumbprint (`none` on computation failure), an over-long key ID
is flagged, any other key ID is kept. -/
def issuerKeyKIDResolution (i : Nat) (k : JWK) : Option (String × List VErr) :=
  if k.keyID.length = 0 then
    match k.thumbprint with
    | none => none
    | some t => some (t, [])
  else if k.keyID.length > 100 then
    some (k.keyID, [.privateKeysKeyIDLength i])
  else
    some (k.keyID, [])

/-- One iteration of the `for i` loop of `validateOIDCIssuerPrivateKeys`: skip (with
an error) keys whose RSA public component is nil; resolve an empty key ID to the key
thumbprint (skipping with an error on computation failure) and flag over-long key
IDs; flag duplicate key IDs against the slots assigned so far; assign slot `i`;
check the key-ID pattern; fetch the introspected properties (skipping with an error
on failure); then run the use/algorithm and key-pair validations. -/
def validateOIDCIssuerPrivateKeyStep (i : Nat) (k : JWK) (st : IssuerKeysState) :
    JWK × IssuerKeysState :=
  if isRSAPrivateKeyNilN k.key then
    (k, { st with errs := st.errs ++ [.privateKeysInvalid i] })
  else
    match issuerKeyKIDResolution i k with
    | none => (k, { st with errs := st.errs ++ [.privateKeysCalcThumbprint i] })
    | some (kid, errsKid) =>
      let k := { k with keyID := kid }
      let errsDup :=
        if !(kid == "") && IsStringInSlice kid st.kidArr then
          [VErr.privateKeysAttributeNotUnique i]
        else
          []
      let st := { st with kidArr := st.kidArr.set i kid }
      let errsRe := if reOpenIDConnectKIDMatch kid then [] else [VErr.privateKeysKeyIDNotValid i]
      match k.props with
      | none =>
        (k, { st with errs :=
          st.errs ++ errsKid ++ errsDup ++ errsRe ++ [.privateKeysProperties i] })
      | some props =>
        let st := { st with errs := st.errs ++ errsKid ++ errsDup ++ errsRe }
        let (k, st) := validateOIDCIssuerPrivateKeysUseAlg i props k st
        let st := validateOIDCIssuerPrivateKeyPair i k st
        (k, st)

/-- The `for i := 0; i < len(config.IssuerPrivateKeys); i++` loop, as a recursion
over the remaining keys carrying the current index. -/
def validateOIDCIssuerPrivateKeysLoop : Nat → List JWK → IssuerKeysState →
    List JWK × IssuerKeysState
  | _, [], st => ([], st)
  | i, k :: ks, st =>
    let (k', st') := validateOIDCIssuerPrivateKeyStep i k st
    let (ks', st'') := validateOIDCIssuerPrivateKeysLoop (i + 1) ks st'
    (k' :: ks', st'')

/-- Result of `validateOIDCIssuerPrivateKeys`: the resolved keys plus the discovery
sets and errors. -/
structure IssuerKeysResult where
  keys : List JWK
  kidArr : List String
  algs : List String
  defaultKeyIDs : List (String × String)
  errs : List VErr
  deriving DecidableEq, Repr

/-- `validateOIDCIssuerPrivateKeys`: pre-allocates the discovery key-ID slice and
resets the default-key-ID map, runs the per-key loop, then raises the global error
when algorithms were discovered but RS256 is not among them. -/
def validateOIDCIssuerPrivateKeys (keys : List JWK) : IssuerKeysResult :=
  let st0 : IssuerKeysState :=
    { kidArr := List.replicate keys.length "", algs := [], defaultKeyIDs := [], errs := [] }
  let (keys', st) := validateOIDCIssuerPrivateKeysLoop 0 keys st0
  let errs :=
    if !(st.algs == []) && !(IsStringInSlice SigningAlgRSAUsingSHA256 st.algs) then
      st.errs ++ [.privateKeysNoRS256]
    else
      st.errs
  { keys := keys', kidArr := st.kidArr, algs := st.algs,
    defaultKeyIDs := st.defaultKeyIDs, errs := errs }

/-- The key material is an RSA private key strictly smaller than 2048 bits
(`key.Size()` is the modulus size in bytes). -/
def rsaPrivateKeyBelow2048Bits : KeyMaterial → Prop
  | .rsaPrivateKey size _ => size * 8 < 2048
  | _ => False

/-- The key material is neither an RSA nor an ECDSA private key. -/
def keyNotRSAOrECDSAPrivate : KeyMaterial → Prop
  | .rsaPrivateKey _ _ => False
  | .ecdsaPrivateKey => False
  | _ => True

/-- A well-formed 1024-bit RSA issuer key (128-byte modulus). -/
def jwkRSA1024 : JWK :=
  { keyID := "rsakid1", algorithm := SigningAlgRSAUsingSHA256, use := "sig",
    key := .rsaPrivateKey 128 false, certificateChain := ⟨false, true, true⟩,
    thumbprint := some "tp1", props := some ⟨"sig", SigningAlgRSAUsingSHA256⟩ }

/-- A well-formed 2048-bit RSA issuer key (256-byte modulus). -/
def jwkRSA2048 : JWK :=
  { keyID := "rsakid2", algorithm := SigningAlgRSAUsingSHA256, use := "sig",
    key := .rsaPrivateKey 256 false, certificateChain := ⟨false, true, true⟩,
    thumbprint := some "tp2", props := some ⟨"sig", SigningAlgRSAUsingSHA256⟩ }

/-- C8: `validateOIDCIssuerPrivateKeyPair` records the RSA-size error exactly when
the key is an RSA private key smaller than 2048 bits, and records the
not-RSA-or-ECDSA error exactly when the key type is neither; concretely a 1024-bit
RSA key is rejected with the size error and a 2048-bit RSA key passes with no
error at all. -/
theorem c8_issuer_key_pair_checks (i : Nat) (k : JWK) (kidArr algs : List String)
    (dks : List (String × String)) :
    (VErr.privateKeysRSAKeyLessThan2048Bits i ∈
        (validateOIDCIssuerPrivateKeyPair i k ⟨kidArr, algs, dks, []⟩).errs ↔
      rsaPrivateKeyBelow2048Bits k.key) ∧
    (VErr.privateKeysKeyNotRSAOrECDSA i ∈
        (validateOIDCIssuerPrivateKeyPair i k ⟨kidArr, algs, dks, []⟩).errs ↔
      keyNotRSAOrECDSAPrivate k.key) ∧
    VErr.privateKeysRSAKeyLessThan2048Bits 0 ∈
      (validateOIDCIssuerPrivateKeyPair 0 jwkRSA1024 ⟨[""], [], [], []⟩).errs ∧
    (validateOIDCIssuerPrivateKeyPair 0 jwkRSA2048 ⟨[""], [], [], []⟩).errs = [] := by
  refine ⟨?_, ?_, by decide, by decide⟩
  · cases hk : k.key with
    | rsaPrivateKey size nIsNil =>
      by_cases hs : size < 256
      · have : size * 8 < 2048 := by omega
        simp [validateOIDCIssuerPrivateKeyPair, hk, hs, rsaPrivateKeyBelow2048Bits, this]
      · have : ¬ size * 8 < 2048 := by omega
        simp only [validateOIDCIssuerPrivateKeyPair, hk, hs, rsaPrivateKeyBelow2048Bits]
        split <;> simp_all
    | ecdsaPrivateKey =>
      simp only [validateOIDCIssuerPrivateKeyPair, hk, rsaPrivateKeyBelow2048Bits]
      split <;> simp_all
    | rsaPublicKey size nIsNil =>
      simp only [validateOIDCIssuerPrivateKeyPair, hk, rsaPrivateKeyBelow2048Bits]
      split <;> simp_all
    | ecdsaPublicKey =>
      simp only [validateOIDCIssuerPrivateKeyPair, hk, rsaPrivateKeyBelow2048Bits]
      split <;> simp_all
    | nilKey =>
      simp only [validateOIDCIssuerPrivateKeyPair, hk, rsaPrivateKeyBelow2048Bits]
      split <;> simp_all
    | otherKey =>
      simp only [validateOIDCIssuerPrivateKeyPair, hk, rsaPrivateKeyBelow2048Bits]
      split <;> simp_all
  · cases hk : k.key with
    | rsaPrivateKey size nIsNil =>
      by_cases hs : size < 256 <;>
        · simp only [validateOIDCIssuerPrivateKeyPair, hk, hs, keyNotRSAOrECDSAPrivate]
          split <;> simp_all
    | ecdsaPrivateKey =>
      simp only [validateOIDCIssuerPrivateKeyPair, hk, keyNotRSAOrECDSAPrivate]
      split <;> simp_all
    | rsaPublicKey size nIsNil =>
      simp only [validateOIDCIssuerPrivateKeyPair, hk, keyNotRSAOrECDSAPrivate]
      split <;> simp_all
    | ecdsaPublicKey =>
      simp only [validateOIDCIssuerPrivateKeyPair, hk, keyNotRSAOrECDSAPrivate]
      split <;> simp_all
    | nilKey =>
      simp only [validateOIDCIssuerPrivateKeyPair, hk, keyNotRSAOrECDSAPrivate]
      split <;> simp_all
    | otherKey =>
      simp only [validateOIDCIssuerPrivateKeyPair, hk, keyNotRSAOrECDSAPrivate]
      split <;> simp_all

theorem issuerUseAlg_noRS256 (i : Nat) (props : JWKProps) (k : JWK)
    (st : IssuerKeysState) :
    (VErr.privateKeysNoRS256 ∈ (validateOIDCIssuerPrivateKeysUseAlg i props k st).2.errs ↔
      VErr.privateKeysNoRS256 ∈ st.errs) := by
  simp only [validateOIDCIssuerPrivateKeysUseAlg]
  split <;> split <;> simp_all

theorem issuerKeyPair_noRS256 (i : Nat) (k : JWK) (st : IssuerKeysState) :
    (VErr.privateKeysNoRS256 ∈ (validateOIDCIssuerPrivateKeyPair i k st).errs ↔
      VErr.privateKeysNoRS256 ∈ st.errs) := by
  simp only [validateOIDCIssuerPrivateKeyPair]
  split <;> split <;> simp_all

theorem issuerStep_noRS256 (i : Nat) (k : JWK) (st : IssuerKeysState) :
    (VErr.privateKeysNoRS256 ∈ (validateOIDCIssuerPrivateKeyStep i k st).2.errs ↔
      VErr.privateKeysNoRS256 ∈ st.errs) := by
  simp only [validateOIDCIssuerPrivateKeyStep]
  split
  · simp
  · split
    · simp
    · rename_i kid errsKid heq
      have hkid : VErr.privateKeysNoRS256 ∉ errsKid := by
        unfold issuerKeyKIDResolution at heq
        split at heq
        · split at heq
          · simp at heq
          · simp only [Option.some.injEq, Prod.mk.injEq] at heq
            rw [← heq.2]
            simp
        · split at heq <;>
            · simp only [Option.some.injEq, Prod.mk.injEq] at heq
              rw [← heq.2]
              simp
      cases hp : k.props with
      | none =>
        simp only [hp]
        split <;> split_ifs <;> simp_all
      | some props =>
        simp only [hp]
        rw [issuerKeyPair_noRS256, issuerUseAlg_noRS256]
        split <;> split_ifs <;> simp_all

theorem issuerLoop_noRS256 (ks : List JWK) (i : Nat) (st : IssuerKeysState) :
    (VErr.privateKeysNoRS256 ∈ (validateOIDCIssuerPrivateKeysLoop i ks st).2.errs ↔
      VErr.privateKeysNoRS256 ∈ st.errs) := by
  induction ks generalizing i st with
  | nil => simp [validateOIDCIssuerPrivateKeysLoop]
  | cons k ks ih =>
    simp only [validateOIDCIssuerPrivateKeysLoop]
    rw [ih]
    exact issuerStep_noRS256 i k st

/-- C7: after `validateOIDCIssuerPrivateKeys` processes all keys, the global
no-RS256 error is recorded if and only if the discovered algorithm list is
non-empty and does not contain RS256. -/
theorem c7_no_rs256_error (keys : List JWK) :
    (VErr.privateKeysNoRS256 ∈ (validateOIDCIssuerPrivateKeys keys).errs ↔
      ((validateOIDCIssuerPrivateKeys keys).algs ≠ [] ∧
        SigningAlgRSAUsingSHA256 ∉ (validateOIDCIssuerPrivateKeys keys).algs)) := by
  unfold validateOIDCIssuerPrivateKeys
  dsimp only
  cases hl : validateOIDCIssuerPrivateKeysLoop 0 keys
      { kidArr := List.replicate keys.length "", algs := [], defaultKeyIDs := [],
        errs := [] } with
  | mk keys' st =>
    have hloop := issuerLoop_noRS256 keys 0
      { kidArr := List.replicate keys.length "", algs := [], defaultKeyIDs := [],
        errs := [] }
    rw [hl] at hloop
    simp only [List.not_mem_nil, iff_false] at hloop
    dsimp only
    by_cases he : (st.algs == []) = true
    · have : st.algs = [] := by simpa using he
      simp [he, hloop, this]
    · simp only [Bool.not_eq_true] at he
      have hne : st.algs ≠ [] := by
        intro hc
        rw [hc] at he
        cases he
      by_cases hm : IsStringInSlice SigningAlgRSAUsingSHA256 st.algs = true
      · have hmem := (isStringInSlice_iff _ _).mp hm
        simp [he, hm, hloop, hne, hmem]
      · simp only [Bool.not_eq_true] at hm
        have hmem : SigningAlgRSAUsingSHA256 ∉ st.algs := by
          intro hc
          rw [((isStringInSlice_iff _ _).mpr hc : _)] at hm
          cases hm
        simp [he, hm, hloop, hne, hmem]

/-- The key ID a well-formed key resolves to: an empty configured key ID is
replaced by the key's thumbprint. -/
def jwkResolvedKID (k : JWK) : String :=
  if k.keyID = "" then k.thumbprint.getD "" else k.keyID

/-- The algorithm a well-formed key resolves to: an empty configured algorithm is
replaced by the introspected property algorithm. -/
def jwkResolvedAlg (k : JWK) : String :=
  if k.algorithm = "" then (k.props.map JWKProps.alg).getD "" else k.algorithm

/-- The use a well-formed key resolves to: an empty configured use is replaced by
the introspected property use. -/
def jwkResolvedUse (k : JWK) : String :=
  if k.use = "" then (k.props.map JWKProps.use).getD "" else k.use

/-- The key as it stands after one loop iteration of
`validateOIDCIssuerPrivateKeys` (for a well-formed key). -/
def jwkResolve (k : JWK) : JWK :=
  { k with keyID := jwkResolvedKID k, algorithm := jwkResolvedAlg k,
           use := jwkResolvedUse k }

/-- A key is well-formed (claim C5's hypothesis) when none of the loop's skip
conditions fire: its RSA public component is not nil, its thumbprint is computable
whenever the key ID must be derived from it, and its introspected properties are
available. -/
def JWKWellFormed (k : JWK) : Prop :=
  isRSAPrivateKeyNilN k.key = false ∧
  (k.keyID = "" → k.thumbprint.isSome) ∧
  k.props.isSome

instance (k : JWK) : Decidable (JWKWellFormed k) := by
  unfold JWKWellFormed
  infer_instance

/-- The discovery-algorithm accumulation of one key: append when non-empty and not
already present. -/
def algDiscoveryAppend (acc : List String) (alg : String) : List String :=
  if !(alg == "") && !(IsStringInSlice alg acc) then acc ++ [alg] else acc

theorem string_length_eq_zero_iff (s : String) : s.length = 0 ↔ s = "" := by
  constructor
  · intro h
    cases s with
    | mk data =>
      have hd : data = [] := by simpa [String.length] using h
      subst hd
      rfl
  · intro h
    subst h
    rfl

theorem issuerKIDResolution_wf (i : Nat) (k : JWK) (h : JWKWellFormed k) :
    ∃ el, issuerKeyKIDResolution i k = some (jwkResolvedKID k, el) := by
  by_cases hid : k.keyID = ""
  · obtain ⟨t, ht⟩ := Option.isSome_iff_exists.mp (h.2.1 hid)
    have hlen : k.keyID.length = 0 := (string_length_eq_zero_iff _).mpr hid
    exact ⟨[], by simp [issuerKeyKIDResolution, hlen, ht, jwkResolvedKID, hid]⟩
  · have hlen : ¬ k.keyID.length = 0 := fun hc =>
      hid ((string_length_eq_zero_iff k.keyID).mp hc)
    by_cases hlong : 100 < k.keyID.length
    · exact ⟨[.privateKeysKeyIDLength i],
        by simp [issuerKeyKIDResolution, hlen, hlong, jwkResolvedKID, hid]⟩
    · exact ⟨[], by simp [issuerKeyKIDResolution, hlen, hlong, jwkResolvedKID, hid]⟩

theorem issuerUseAlg_kidArr (i : Nat) (p : JWKProps) (k : JWK) (st : IssuerKeysState) :
    (validateOIDCIssuerPrivateKeysUseAlg i p k st).2.kidArr = st.kidArr := by
  unfold validateOIDCIssuerPrivateKeysUseAlg
  split_ifs <;> rfl

theorem issuerUseAlg_algs (i : Nat) (p : JWKProps) (k : JWK) (st : IssuerKeysState) :
    (validateOIDCIssuerPrivateKeysUseAlg i p k st).2.algs =
      algDiscoveryAppend st.algs (if k.algorithm = "" then p.alg else k.algorithm) := by
  unfold validateOIDCIssuerPrivateKeysUseAlg algDiscoveryAppend
  split_ifs <;> simp_all

theorem issuerUseAlg_key (i : Nat) (p : JWKProps) (k : JWK) (st : IssuerKeysState) :
    (validateOIDCIssuerPrivateKeysUseAlg i p k st).1 =
      { k with use := if k.use = "" then p.use else k.use,
               algorithm := if k.algorithm = "" then p.alg else k.algorithm } := by
  unfold validateOIDCIssuerPrivateKeysUseAlg
  split_ifs <;> simp_all

theorem issuerKeyPair_kidArr (i : Nat) (k : JWK) (st : IssuerKeysState) :
    (validateOIDCIssuerPrivateKeyPair i k st).kidArr = st.kidArr := by
  unfold validateOIDCIssuerPrivateKeyPair
  split <;> split_ifs <;> rfl

theorem issuerKeyPair_algs (i : Nat) (k : JWK) (st : IssuerKeysState) :
    (validateOIDCIssuerPrivateKeyPair i k st).algs = st.algs := by
  unfold validateOIDCIssuerPrivateKeyPair
  split <;> split_ifs <;> rfl

theorem issuerStep_wf_key (i : Nat) (k : JWK) (st : IssuerKeysState)
    (h : JWKWellFormed k) :
    (validateOIDCIssuerPrivateKeyStep i k st).1 = jwkResolve k := by
  obtain ⟨el, hel⟩ := issuerKIDResolution_wf i k h
  obtain ⟨p, hp⟩ := Option.isSome_iff_exists.mp h.2.2
  unfold validateOIDCIssuerPrivateKeyStep
  rw [hel]
  simp only [h.1, Bool.false_eq_true, if_false]
  have hprops2 : (JWK.props { k with keyID := jwkResolvedKID k }) = some p := hp
  rw [hprops2]
  simp only [issuerUseAlg_key]
  simp [jwkResolve, jwkResolvedAlg, jwkResolvedUse, hp]

theorem issuerStep_wf_kidArr (i : Nat) (k : JWK) (st : IssuerKeysState)
    (h : JWKWellFormed k) :
    (validateOIDCIssuerPrivateKeyStep i k st).2.kidArr =
      st.kidArr.set i (jwkResolvedKID k) := by
  obtain ⟨el, hel⟩ := issuerKIDResolution_wf i k h
  obtain ⟨p, hp⟩ := Option.isSome_iff_exists.mp h.2.2
  unfold validateOIDCIssuerPrivateKeyStep
  rw [hel]
  simp only [h.1, Bool.false_eq_true, if_false]
  have hprops2 : (JWK.props { k with keyID := jwkResolvedKID k }) = some p := hp
  rw [hprops2]
  simp only [issuerKeyPair_kidArr, issuerUseAlg_kidArr]

theorem issuerStep_wf_algs (i : Nat) (k : JWK) (st : IssuerKeysState)
    (h : JWKWellFormed k) :
    (validateOIDCIssuerPrivateKeyStep i k st).2.algs =
      algDiscoveryAppend st.algs (jwkResolvedAlg k) := by
  obtain ⟨el, hel⟩ := issuerKIDResolution_wf i k h
  obtain ⟨p, hp⟩ := Option.isSome_iff_exists.mp h.2.2
  unfold validateOIDCIssuerPrivateKeyStep
  rw [hel]
  simp only [h.1, Bool.false_eq_true, if_false]
  have hprops2 : (JWK.props { k with keyID := jwkResolvedKID k }) = some p := hp
  rw [hprops2]
  simp only [issuerKeyPair_algs, issuerUseAlg_algs]
  simp [jwkResolvedAlg, hp]

theorem issuerLoop_cons (i : Nat) (k : JWK) (ks : List JWK) (st : IssuerKeysState) :
    validateOIDCIssuerPrivateKeysLoop i (k :: ks) st =
      ((validateOIDCIssuerPrivateKeyStep i k st).1 ::
        (validateOIDCIssuerPrivateKeysLoop (i + 1) ks
          (validateOIDCIssuerPrivateKeyStep i k st).2).1,
       (validateOIDCIssuerPrivateKeysLoop (i + 1) ks
          (validateOIDCIssuerPrivateKeyStep i k st).2).2) := rfl

theorem set_append_cons (pre : List String) (x b : String) (rest : List String) :
    (pre ++ x :: rest).set pre.length b = pre ++ b :: rest := by
  induction pre with
  | nil => rfl
  | cons a as ih => simp [List.set, ih]

theorem issuerLoop_wf_keys (ks : List JWK) (hwf : ∀ k ∈ ks, JWKWellFormed k)
    (i : Nat) (st : IssuerKeysState) :
    (validateOIDCIssuerPrivateKeysLoop i ks st).1 = ks.map jwkResolve := by
  induction ks generalizing i st with
  | nil => rfl
  | cons k ks ih =>
    rw [issuerLoop_cons]
    simp only [List.map_cons]
    rw [issuerStep_wf_key i k st (hwf k (List.mem_cons_self k ks)),
      ih (fun x hx => hwf x (List.mem_cons_of_mem k hx))]

theorem issuerLoop_wf_kidArr (ks : List JWK) (hwf : ∀ k ∈ ks, JWKWellFormed k)
    (pre : List String) (st : IssuerKeysState)
    (hst : st.kidArr = pre ++ List.replicate ks.length "") :
    (validateOIDCIssuerPrivateKeysLoop pre.length ks st).2.kidArr =
      pre ++ ks.map jwkResolvedKID := by
  induction ks generalizing pre st with
  | nil => simpa [validateOIDCIssuerPrivateKeysLoop] using hst
  | cons k ks ih =>
    rw [issuerLoop_cons]
    have hwfk := hwf k (List.mem_cons_self k ks)
    have hwfks : ∀ x ∈ ks, JWKWellFormed x := fun x hx => hwf x (List.mem_cons_of_mem k hx)
    have hstep := issuerStep_wf_kidArr pre.length k st hwfk
    have hst2 : ((validateOIDCIssuerPrivateKeyStep pre.length k st).2).kidArr =
        (pre ++ [jwkResolvedKID k]) ++ List.replicate ks.length "" := by
      rw [hstep, hst]
      simp only [List.length_cons, List.replicate_succ, set_append_cons]
      simp
    have ih2 := ih hwfks (pre ++ [jwkResolvedKID k])
      ((validateOIDCIssuerPrivateKeyStep pre.length k st).2) hst2
    have hidx : (pre ++ [jwkResolvedKID k]).length = pre.length + 1 := by simp
    rw [hidx] at ih2
    simp only
    rw [ih2]
    simp

theorem issuerLoop_wf_algs (ks : List JWK) (hwf : ∀ k ∈ ks, JWKWellFormed k)
    (i : Nat) (st : IssuerKeysState) :
    (validateOIDCIssuerPrivateKeysLoop i ks st).2.algs =
      (ks.map jwkResolvedAlg).foldl algDiscoveryAppend st.algs := by
  induction ks generalizing i st with
  | nil => rfl
  | cons k ks ih =>
    rw [issuerLoop_cons]
    simp only [List.map_cons, List.foldl_cons]
    rw [ih (fun x hx => hwf x (List.mem_cons_of_mem k hx)),
      issuerStep_wf_algs i k st (hwf k (List.mem_cons_self k ks))]

theorem algDiscoveryAppend_nodup (acc : List String) (a : String) (h : acc.Nodup) :
    (algDiscoveryAppend acc a).Nodup := by
  unfold algDiscoveryAppend
  split_ifs with hcond
  · have hna : a ∉ acc := by
      intro hc
      have := (isStringInSlice_iff a acc).mpr hc
      simp [this] at hcond
    simp [List.nodup_append, h, hna]
  · exact h

theorem algsFoldl_nodup (as : List String) (acc : List String) (h : acc.Nodup) :
    (as.foldl algDiscoveryAppend acc).Nodup := by
  induction as generalizing acc with
  | nil => exact h
  | cons a as ih =>
    rw [List.foldl_cons]
    exact ih _ (algDiscoveryAppend_nodup acc a h)

theorem jwkResolve_wf (k : JWK) (h : JWKWellFormed k) : JWKWellFormed (jwkResolve k) := by
  obtain ⟨hnil, hthumb, hprops⟩ := h
  refine ⟨hnil, ?_, hprops⟩
  intro hid
  by_cases hk : k.keyID = ""
  · exact hthumb hk
  · exfalso
    have : jwkResolvedKID k = k.keyID := by simp [jwkResolvedKID, hk]
    have h2 : (jwkResolve k).keyID = k.keyID := by simp [jwkResolve, this]
    rw [h2] at hid
    exact hk hid

theorem jwkResolvedKID_resolve (k : JWK) :
    jwkResolvedKID (jwkResolve k) = jwkResolvedKID k := by
  simp only [jwkResolve, jwkResolvedKID]
  by_cases hk : k.keyID = ""
  · by_cases ht : k.thumbprint.getD "" = "" <;> simp [hk, ht]
  · simp [hk]

theorem jwkResolvedAlg_resolve (k : JWK) :
    jwkResolvedAlg (jwkResolve k) = jwkResolvedAlg k := by
  simp only [jwkResolve, jwkResolvedAlg]
  by_cases hk : k.algorithm = ""
  · by_cases ha : (k.props.map JWKProps.alg).getD "" = "" <;> simp [hk, ha]
  · simp [hk]

theorem issuerKeys_proj_keys (keys : List JWK) :
    (validateOIDCIssuerPrivateKeys keys).keys =
      (validateOIDCIssuerPrivateKeysLoop 0 keys
        { kidArr := List.replicate keys.length "", algs := [], defaultKeyIDs := [],
          errs := [] }).1 := rfl

theorem issuerKeys_proj_kidArr (keys : List JWK) :
    (validateOIDCIssuerPrivateKeys keys).kidArr =
      (validateOIDCIssuerPrivateKeysLoop 0 keys
        { kidArr := List.replicate keys.length "", algs := [], defaultKeyIDs := [],
          errs := [] }).2.kidArr := rfl

theorem issuerKeys_proj_algs (keys : List JWK) :
    (validateOIDCIssuerPrivateKeys keys).algs =
      (validateOIDCIssuerPrivateKeysLoop 0 keys
        { kidArr := List.replicate keys.length "", algs := [], defaultKeyIDs := [],
          errs := [] }).2.algs := rfl

/-- C5: for every valid key set (well-formed keys with pairwise-distinct resolved
key IDs), after `validateOIDCIssuerPrivateKeys` the discovery algorithm list
contains each algorithm at most once, the discovery key-ID list has no duplicates,
and re-running the resolution on the resolved key set yields identical discovery
algorithm and key-ID sets. -/
theorem c5_issuer_keys_discovery (keys : List JWK)
    (hwf : ∀ k ∈ keys, JWKWellFormed k)
    (hnd : (keys.map jwkResolvedKID).Nodup) :
    (validateOIDCIssuerPrivateKeys keys).algs.Nodup ∧
    (validateOIDCIssuerPrivateKeys keys).kidArr.Nodup ∧
    (validateOIDCIssuerPrivateKeys (validateOIDCIssuerPrivateKeys keys).keys).algs =
      (validateOIDCIssuerPrivateKeys keys).algs ∧
    (validateOIDCIssuerPrivateKeys (validateOIDCIssuerPrivateKeys keys).keys).kidArr =
      (validateOIDCIssuerPrivateKeys keys).kidArr := by
  have hkeys : (validateOIDCIssuerPrivateKeys keys).keys = keys.map jwkResolve := by
    rw [issuerKeys_proj_keys]
    exact issuerLoop_wf_keys keys hwf 0 _
  have halgs : (validateOIDCIssuerPrivateKeys keys).algs =
      (keys.map jwkResolvedAlg).foldl algDiscoveryAppend [] := by
    rw [issuerKeys_proj_algs]
    exact issuerLoop_wf_algs keys hwf 0 _
  have hkid : (validateOIDCIssuerPrivateKeys keys).kidArr = keys.map jwkResolvedKID := by
    rw [issuerKeys_proj_kidArr]
    exact issuerLoop_wf_kidArr keys hwf [] _ rfl
  have hwf2 : ∀ k ∈ keys.map jwkResolve, JWKWellFormed k := by
    intro k hk
    obtain ⟨x, hx, hxe⟩ := List.mem_map.mp hk
    rw [← hxe]
    exact jwkResolve_wf x (hwf x hx)
  have hmapkid : (keys.map jwkResolve).map jwkResolvedKID = keys.map jwkResolvedKID := by
    rw [List.map_map]
    exact List.map_congr_left (fun x _ => jwkResolvedKID_resolve x)
  have hmapalg : (keys.map jwkResolve).map jwkResolvedAlg = keys.map jwkResolvedAlg := by
    rw [List.map_map]
    exact List.map_congr_left (fun x _ => jwkResolvedAlg_resolve x)
  have halgs2 : (validateOIDCIssuerPrivateKeys (keys.map jwkResolve)).algs =
      (keys.map jwkResolvedAlg).foldl algDiscoveryAppend [] := by
    rw [issuerKeys_proj_algs]
    rw [issuerLoop_wf_algs (keys.map jwkResolve) hwf2 0 _]
    rw [hmapalg]
  have hkid2 : (validateOIDCIssuerPrivateKeys (keys.map jwkResolve)).kidArr =
      keys.map jwkResolvedKID := by
    rw [issuerKeys_proj_kidArr]
    have hloop := issuerLoop_wf_kidArr (keys.map jwkResolve) hwf2 []
      { kidArr := List.replicate (keys.map jwkResolve).length "", algs := [],
        defaultKeyIDs := [], errs := [] } rfl
    simp only [List.length_nil, List.nil_append] at hloop
    rw [hloop, hmapkid]
  refine ⟨?_, ?_, ?_, ?_⟩
  · rw [halgs]
    exact algsFoldl_nodup _ _ List.nodup_nil
  · rw [hkid]
    exact hnd
  · rw [hkeys, halgs2, halgs]
  · rw [hkeys, hkid2, hkid]

/-- C5 witness: instantiating the discovery theorem at a concrete valid key set of
one RSA and one ECDSA key with distinct key IDs. -/
theorem c5_issuer_keys_discovery_witness :
    (validateOIDCIssuerPrivateKeys [jwkRSA2048, jwkES256]).algs.Nodup ∧
    (validateOIDCIssuerPrivateKeys [jwkRSA2048, jwkES256]).kidArr.Nodup ∧
    (validateOIDCIssuerPrivateKeys
        (validateOIDCIssuerPrivateKeys [jwkRSA2048, jwkES256]).keys).algs =
      (validateOIDCIssuerPrivateKeys [jwkRSA2048, jwkES256]).algs ∧
    (validateOIDCIssuerPrivateKeys
        (validateOIDCIssuerPrivateKeys [jwkRSA2048, jwkES256]).keys).kidArr =
      (validateOIDCIssuerPrivateKeys [jwkRSA2048, jwkES256]).kidArr :=
  c5_issuer_keys_discovery [jwkRSA2048, jwkES256] (by decide) (by decide)

/-- The `https` URI scheme. -/
def schemeHTTPS : String := "https"

/-- `validateOIDCClientJSONWebKeysListKeyUseAlg`: like the issuer variant but with
no `fallthrough` (an invalid explicit algorithm is an error and no default-key-ID
map exists) and appending discovered algorithms to both the global and the
per-client request-object-signing discovery lists. -/
def validateOIDCClientJSONWebKeysListKeyUseAlg (i : Nat) (props : JWKProps) (k : JWK)
    (g cl : List String) : JWK × List String × List String × List VErr :=
  let (use, errsUse) :=
    if k.use == "" then
      (props.use, [])
    else if k.use == KeyUseSignature then
      (k.use, [])
    else
      (k.use, [VErr.clientPublicKeysInvalidOptionUse i])
  let k := { k with use := use }
  let (alg, errsAlg) :=
    if k.algorithm == "" then
      (props.alg, [])
    else if IsStringInSlice k.algorithm validOIDCIssuerJWKSigningAlgs then
      (k.algorithm, [])
    else
      (k.algorithm, [VErr.clientPublicKeysInvalidOptionAlg i])
  let k := { k with algorithm := alg }
  let g :=
    if !(k.algorithm == "") && !(IsStringInSlice k.algorithm g) then g ++ [k.algorithm] else g
  let cl :=
    if !(k.algorithm == "") && !(IsStringInSlice k.algorithm cl) then cl ++ [k.algorithm] else cl
  (k, g, cl, errsUse ++ errsAlg)

/-- The key-type/size and certificate-chain checks for one client public key
(source lines 467-498). -/
def validateOIDCClientPublicKeyPair (i : Nat) (k : JWK) : List VErr :=
  let (checkEqualKey, errsKey) :=
    match k.key with
    | .nilKey => (false, [VErr.clientPublicKeysMissingKey i])
    | .rsaPublicKey size nIsNil =>
      if nIsNil then
        (false, [VErr.clientPublicKeysKeyMalformed i])
      else if size < 256 then
        (false, [VErr.clientPublicKeysRSAKeyLessThan2048Bits i])
      else
        (true, [])
    | .ecdsaPublicKey => (true, [])
    | _ => (false, [VErr.clientPublicKeysKeyNotRSAOrECDSA i])
  if k.certificateChain.hasCerts then
    errsKey ++
    (if checkEqualKey && !k.certificateChain.equalKey then
      [VErr.clientPublicKeysCertificateChainKeyMismatch i]
    else []) ++
    (if k.certificateChain.valid then [] else [VErr.clientPublicKeysCertificateChainInvalid i])
  else
    errsKey

/-- One iteration of the `validateOIDCClientJSONWebKeysList` loop: a blank key ID
is an error (processing continues); a properties failure is an error and skips the
rest; otherwise the use/algorithm and key-pair checks run. -/
def validateOIDCClientJSONWebKeysEntry (i : Nat) (k : JWK) (g cl : List String) :
    JWK × List String × List String × List VErr :=
  let errsKid := if k.keyID == "" then [VErr.clientPublicKeysMissingKeyID i] else []
  match k.props with
  | none => (k, g, cl, errsKid ++ [VErr.clientPublicKeysProperties i])
  | some props =>
    let (k, g, cl, errsUA) := validateOIDCClientJSONWebKeysListKeyUseAlg i props k g cl
    let errsPair := validateOIDCClientPublicKeyPair i k
    (k, g, cl, errsKid ++ errsUA ++ errsPair)

/-- The `for i` loop over a client's inline public keys, threading the two
request-object-signing discovery lists and the errors. -/
def validateOIDCClientJSONWebKeysLoop :
    Nat → List JWK → List String → List String → List VErr →
    List JWK × List String × List String × List VErr
  | _, [], g, cl, errs => ([], g, cl, errs)
  | i, k :: ks, g, cl, errs =>
    let (k', g', cl', errsK) := validateOIDCClientJSONWebKeysEntry i k g cl
    let (ks', g'', cl'', errs') :=
      validateOIDCClientJSONWebKeysLoop (i + 1) ks g' cl' (errs ++ errsK)
    (k' :: ks', g'', cl'', errs')

/-- `validateOIDCClientJSONWebKeysList`: the per-key loop followed by the check
that the client's declared request-object signing algorithm appears in its own
discovered set. -/
def validateOIDCClientJSONWebKeysList (requestObjectSigningAlg : String)
    (values : List JWK) (g cl : List String) :
    List JWK × List String × List String × List VErr :=
  let (values', g', cl', errs) := validateOIDCClientJSONWebKeysLoop 0 values g cl []
  let errs :=
    if !(requestObjectSigningAlg == "") &&
        !(IsStringInSlice requestObjectSigningAlg cl') then
      errs ++ [VErr.clientPublicKeysROSAMissingAlgorithm]
    else
      errs
  (values', g', cl', errs)

/-- A client's public-key configuration after validation: the (unchanged) remote
URI — modelled by its scheme, the only component the validator observes — the
normalized inline values, the two request-object-signing discovery lists, and the
pushed errors. -/
structure ClientPublicKeysResult where
  uri : Option String
  values : List JWK
  globalRequestObjectSigningAlgs : List String
  clientRequestObjectSigningAlgs : List String
  errs : List VErr
  deriving DecidableEq, Repr

/-- `validateOIDCClientPublicKeys`: URI and inline values are mutually exclusive
(both configured is an error and nothing further is validated); a URI alone must
be HTTPS; inline values alone go through the JWK list validation. -/
def validateOIDCClientPublicKeys (uri : Option String) (values : List JWK)
    (requestObjectSigningAlg : String) (g cl : List String) : ClientPublicKeysResult :=
  if uri.isSome && !values.isEmpty then
    ⟨uri, values, g, cl, [VErr.clientPublicKeysBothURIAndValues]⟩
  else if uri.isSome then
    ⟨uri, values, g, cl,
      if uri.getD "" == schemeHTTPS then [] else [VErr.clientPublicKeysURIInvalidScheme]⟩
  else if !values.isEmpty then
    let (values', g', cl', errs) :=
      validateOIDCClientJSONWebKeysList requestObjectSigningAlg values g cl
    ⟨uri, values', g', cl', errs⟩
  else
    ⟨uri, values, g, cl, []⟩

theorem clientKeyUseAlg_notBoth (i : Nat) (props : JWKProps) (k : JWK)
    (g cl : List String) :
    VErr.clientPublicKeysBothURIAndValues ∉
      (validateOIDCClientJSONWebKeysListKeyUseAlg i props k g cl).2.2.2 := by
  unfold validateOIDCClientJSONWebKeysListKeyUseAlg
  by_cases h1 : (k.use == "") = true <;>
    by_cases h2 : (k.use == KeyUseSignature) = true <;>
      by_cases h3 : (k.algorithm == "") = true <;>
        by_cases h4 : IsStringInSlice k.algorithm validOIDCIssuerJWKSigningAlgs = true <;>
          simp [h1, h2, h3, h4]

theorem clientPublicKeyPair_notBoth (i : Nat) (k : JWK) :
    VErr.clientPublicKeysBothURIAndValues ∉ validateOIDCClientPublicKeyPair i k := by
  cases hk : k.key with
  | rsaPublicKey size nIsNil =>
    by_cases h1 : nIsNil = true <;> by_cases h2 : size < 256 <;>
      by_cases h3 : k.certificateChain.hasCerts = true <;>
        by_cases h4 : k.certificateChain.equalKey = true <;>
          by_cases h5 : k.certificateChain.valid = true <;>
            simp [validateOIDCClientPublicKeyPair, hk, h1, h2, h3, h4, h5]
  | rsaPrivateKey size nIsNil =>
    by_cases h3 : k.certificateChain.hasCerts = true <;>
      by_cases h5 : k.certificateChain.valid = true <;>
        simp [validateOIDCClientPublicKeyPair, hk, h3, h5]
  | ecdsaPrivateKey =>
    by_cases h3 : k.certificateChain.hasCerts = true <;>
      by_cases h5 : k.certificateChain.valid = true <;>
        simp [validateOIDCClientPublicKeyPair, hk, h3, h5]
  | ecdsaPublicKey =>
    by_cases h3 : k.certificateChain.hasCerts = true <;>
      by_cases h4 : k.certificateChain.equalKey = true <;>
        by_cases h5 : k.certificateChain.valid = true <;>
          simp [validateOIDCClientPublicKeyPair, hk, h3, h4, h5]
  | nilKey =>
    by_cases h3 : k.certificateChain.hasCerts = true <;>
      by_cases h5 : k.certificateChain.valid = true <;>
        simp [validateOIDCClientPublicKeyPair, hk, h3, h5]
  | otherKey =>
    by_cases h3 : k.certificateChain.hasCerts = true <;>
      by_cases h5 : k.certificateChain.valid = true <;>
        simp [validateOIDCClientPublicKeyPair, hk, h3, h5]

theorem clientJSONWebKeysEntry_notBoth (i : Nat) (k : JWK) (g cl : List String) :
    VErr.clientPublicKeysBothURIAndValues ∉
      (validateOIDCClientJSONWebKeysEntry i k g cl).2.2.2 := by
  cases hp : k.props with
  | none =>
    have hre : (validateOIDCClientJSONWebKeysEntry i k g cl).2.2.2 =
        (if k.keyID == "" then [VErr.clientPublicKeysMissingKeyID i] else []) ++
        [VErr.clientPublicKeysProperties i] := by
      unfold validateOIDCClientJSONWebKeysEntry
      rw [hp]
    rw [hre]
    split_ifs <;> simp
  | some props =>
    have hre : (validateOIDCClientJSONWebKeysEntry i k g cl).2.2.2 =
        (if k.keyID == "" then [VErr.clientPublicKeysMissingKeyID i] else []) ++
        (validateOIDCClientJSONWebKeysListKeyUseAlg i props k g cl).2.2.2 ++
          validateOIDCClientPublicKeyPair i
            (validateOIDCClientJSONWebKeysListKeyUseAlg i props k g cl).1 := by
      unfold validateOIDCClientJSONWebKeysEntry
      rw [hp]
    rw [hre]
    intro hc
    rcases List.mem_append.mp hc with hc | hc
    · rcases List.mem_append.mp hc with hc | hc
      · revert hc
        split_ifs <;> simp
      · exact clientKeyUseAlg_notBoth i props k g cl hc
    · exact clientPublicKeyPair_notBoth i _ hc

theorem clientJSONWebKeysLoop_notBoth (ks : List JWK) (i : Nat) (g cl : List String)
    (errs : List VErr) (h : VErr.clientPublicKeysBothURIAndValues ∉ errs) :
    VErr.clientPublicKeysBothURIAndValues ∉
      (validateOIDCClientJSONWebKeysLoop i ks g cl errs).2.2.2 := by
  induction ks generalizing i g cl errs with
  | nil => simpa [validateOIDCClientJSONWebKeysLoop] using h
  | cons k ks ih =>
    have hcons : (validateOIDCClientJSONWebKeysLoop i (k :: ks) g cl errs).2.2.2 =
        (validateOIDCClientJSONWebKeysLoop (i + 1) ks
          (validateOIDCClientJSONWebKeysEntry i k g cl).2.1
          (validateOIDCClientJSONWebKeysEntry i k g cl).2.2.1
          (errs ++ (validateOIDCClientJSONWebKeysEntry i k g cl).2.2.2)).2.2.2 := rfl
    rw [hcons]
    apply ih
    intro hc
    rcases List.mem_append.mp hc with hc | hc
    · exact h hc
    · exact clientJSONWebKeysEntry_notBoth i k g cl hc

theorem clientJSONWebKeysList_notBoth (rosa : String) (values : List JWK)
    (g cl : List String) :
    VErr.clientPublicKeysBothURIAndValues ∉
      (validateOIDCClientJSONWebKeysList rosa values g cl).2.2.2 := by
  unfold validateOIDCClientJSONWebKeysList
  have hloop := clientJSONWebKeysLoop_notBoth values 0 g cl [] (by simp)
  have hl : validateOIDCClientJSONWebKeysLoop 0 values g cl [] =
      ((validateOIDCClientJSONWebKeysLoop 0 values g cl []).1,
       (validateOIDCClientJSONWebKeysLoop 0 values g cl []).2.1,
       (validateOIDCClientJSONWebKeysLoop 0 values g cl []).2.2.1,
       (validateOIDCClientJSONWebKeysLoop 0 values g cl []).2.2.2) := rfl
  rw [hl]
  dsimp only
  intro hc
  revert hc
  split_ifs <;> intro hc
  · rcases List.mem_append.mp hc with hc | hc
    · exact hloop hc
    · simp at hc
  · exact hloop hc

/-- C6: for every client, the both-configured error is recorded exactly when the
publicKeys URI is set and the inline values list is non-empty simultaneously;
hence whenever validation passes with no error, at most one of the two is set
after validation. -/
theorem c6_public_keys_mutual_exclusion (uri : Option String) (values : List JWK)
    (rosa : String) (g cl : List String) :
    (((validateOIDCClientPublicKeys uri values rosa g cl).uri.isSome = true ∧
        (validateOIDCClientPublicKeys uri values rosa g cl).values ≠ []) ↔
      VErr.clientPublicKeysBothURIAndValues ∈
        (validateOIDCClientPublicKeys uri values rosa g cl).errs) ∧
    ((validateOIDCClientPublicKeys uri values rosa g cl).errs = [] →
      ¬((validateOIDCClientPublicKeys uri values rosa g cl).uri.isSome = true ∧
        (validateOIDCClientPublicKeys uri values rosa g cl).values ≠ [])) := by
  by_cases hu : uri.isSome = true
  · by_cases hv : values.isEmpty = true
    · have hve : values = [] := by simpa using hv
      simp only [validateOIDCClientPublicKeys, hu, hv]
      subst hve
      simp
    · simp only [validateOIDCClientPublicKeys, hu, hv]
      have hvne : values ≠ [] := by
        intro hc
        subst hc
        simp at hv
      simp [hu, hvne]
  · have hun : uri = none := by
      cases uri with
      | none => rfl
      | some s => simp at hu
    by_cases hv : values.isEmpty = true
    · have hve : values = [] := by simpa using hv
      simp only [validateOIDCClientPublicKeys, hu, hv]
      subst hve hun
      simp
    · subst hun
      simp only [validateOIDCClientPublicKeys, Option.isSome_none, Bool.false_eq_true,
        false_and, Bool.not_eq_true, hv]
      have hnb := clientJSONWebKeysList_notBoth rosa values g cl
      constructor
      · constructor
        · intro hcon
          exact absurd hcon.1 (by simp)
        · intro hc
          exact absurd hc hnb
      · intro hnil hcon
        exact absurd hcon.1 (by simp)

/-- C6 witness: a client configured with both a publicKeys URI and a non-empty
inline values list receives exactly the both-configured error. -/
theorem c6_public_keys_mutual_exclusion_witness :
    ((validateOIDCClientPublicKeys (some schemeHTTPS) [jwkES256] "" [] []).uri.isSome = true ∧
      (validateOIDCClientPublicKeys (some schemeHTTPS) [jwkES256] "" [] []).values ≠ []) ↔
    VErr.clientPublicKeysBothURIAndValues ∈
      (validateOIDCClientPublicKeys (some schemeHTTPS) [jwkES256] "" [] []).errs :=
  (c6_public_keys_mutual_exclusion (some schemeHTTPS) [jwkES256] "" [] []).1

/-- `oidc.ClientAuthMethodClientSecretBasic`. -/
def ClientAuthMethodClientSecretBasic : String := "client_secret_basic"

/-- `oidc.ClientAuthMethodClientSecretPost`. -/
def ClientAuthMethodClientSecretPost : String := "client_secret_post"

/-- `oidc.ClientAuthMethodClientSecretJWT`. -/
def ClientAuthMethodClientSecretJWT : String := "client_secret_jwt"

/-- `oidc.ClientAuthMethodPrivateKeyJWT`. -/
def ClientAuthMethodPrivateKeyJWT : String := "private_key_jwt"

/-- `oidc.ClientAuthMethodNone`. -/
def ClientAuthMethodNone : String := "none"

/-- Modelled from the spec: `validOIDCClientTokenEndpointAuthMethods` is not under
`src/`; §4.3 step 10 names the known methods (the secret-based methods,
`client_secret_jwt`, `private_key_jwt` and `none`). -/
def validOIDCClientTokenEndpointAuthMethods : List String :=
  [ClientAuthMethodClientSecretBasic, ClientAuthMethodClientSecretPost,
   ClientAuthMethodClientSecretJWT, ClientAuthMethodPrivateKeyJWT, ClientAuthMethodNone]

/-- Modelled from the spec: `validOIDCClientResponseTypesImplicitFlow` is not under
`src/`; the implicit-flow response types per §4.3 steps 5-6. -/
def validOIDCClientResponseTypesImplicitFlow : List String :=
  ["id_token", "token", "id_token token"]

/-- Modelled from the spec: `validOIDCClientTokenEndpointAuthSigAlgsClientSecretJWT`
is not under `src/`; §4.3 step 10 restricts `client_secret_jwt` to the HMAC family. -/
def validOIDCClientTokenEndpointAuthSigAlgsClientSecretJWT : List String :=
  ["HS256", "HS384", "HS512"]

/-- The client fields consulted by `validateOIDCClientTokenEndpointAuth`.
The secret is modelled by what the validator observes: present or not, and
`IsPlainText()` when present. -/
structure OIDCClient where
  public : Bool
  responseTypes : List String
  tokenEndpointAuthMethod : String
  tokenEndpointAuthSigningAlg : String
  secret : Option Bool
  publicKeysURI : Option String
  publicKeysValues : List JWK
  clientRequestObjectSigningAlgs : List String
  deriving DecidableEq, Repr

/-- `validateOIDCClientTokenEndpointAuthClientSecretJWT`: default the signing
algorithm to HS256, otherwise require one of the HMAC algorithms. -/
def validateOIDCClientTokenEndpointAuthClientSecretJWT (client : OIDCClient) :
    OIDCClient × List VErr :=
  if client.tokenEndpointAuthSigningAlg == "" then
    ({ client with tokenEndpointAuthSigningAlg := SigningAlgHMACUsingSHA256 }, [])
  else if !(IsStringInSlice client.tokenEndpointAuthSigningAlg
      validOIDCClientTokenEndpointAuthSigAlgsClientSecretJWT) then
    (client, [VErr.clientInvalidTokenEndpointAuthSigAlg])
  else
    (client, [])

/-- `validateOIDCClientTokenEndpointAuthPublicKeyJWT`: a signing algorithm is
required (no default) and restricted to the issuer algorithm set; public key
material must be configured, and inline values require the chosen algorithm to
appear among the client's discovered request-object-signing algorithms. -/
def validateOIDCClientTokenEndpointAuthPublicKeyJWT (client : OIDCClient) : List VErr :=
  (if client.tokenEndpointAuthSigningAlg == "" then
    [VErr.clientInvalidTokenEndpointAuthSigAlgMissingPrivateKeyJWT]
  else if !(IsStringInSlice client.tokenEndpointAuthSigningAlg
      validOIDCIssuerJWKSigningAlgs) then
    [VErr.clientInvalidTokenEndpointAuthSigAlg]
  else []) ++
  (if client.publicKeysURI.isNone then
    if client.publicKeysValues.isEmpty then
      [VErr.clientInvalidPublicKeysPrivateKeyJWT]
    else if !(client.clientRequestObjectSigningAlgs == []) &&
        !(IsStringInSlice client.tokenEndpointAuthSigningAlg
          client.clientRequestObjectSigningAlgs) then
      [VErr.clientInvalidTokenEndpointAuthSigAlgReg]
    else []
  else [])

/-- `validateOIDCClientTokenEndpointAuth`: the first `switch` validates the method
itself (an unknown non-empty method records the invalid-value error and returns
immediately); the second selects between no-secret / secret-required /
private-key-JWT handling; the tail enforces the secret requirements, the
plaintext rules and the no-secret-expected errors. -/
def validateOIDCClientTokenEndpointAuth (client : OIDCClient) :
    OIDCClient × List VErr × List VWarn :=
  let implicitFlow := !(client.responseTypes == []) &&
    IsStringSliceContainsAll client.responseTypes validOIDCClientResponseTypesImplicitFlow
  if !(client.tokenEndpointAuthMethod == "") &&
      !(IsStringInSlice client.tokenEndpointAuthMethod
        validOIDCClientTokenEndpointAuthMethods) then
    (client, [.clientInvalidValue attrOIDCTokenAuthMethod], [])
  else
    let errs0 :=
      if client.tokenEndpointAuthMethod == "" then
        []
      else if client.tokenEndpointAuthMethod == ClientAuthMethodNone &&
          !client.public && !implicitFlow then
        [VErr.clientInvalidTokenEndpointAuthMethod]
      else if !(client.tokenEndpointAuthMethod == ClientAuthMethodNone) &&
          client.public then
        [VErr.clientInvalidTokenEndpointAuthMethodPublic]
      else
        []
    let (client, errsM, secret) :=
      if client.tokenEndpointAuthMethod == ClientAuthMethodClientSecretJWT then
        let (c2, e2) := validateOIDCClientTokenEndpointAuthClientSecretJWT client
        (c2, e2, true)
      else if client.tokenEndpointAuthMethod == "" then
        (client, [], !client.public)
      else if client.tokenEndpointAuthMethod == ClientAuthMethodClientSecretPost ||
          client.tokenEndpointAuthMethod == ClientAuthMethodClientSecretBasic then
        (client, [], true)
      else if client.tokenEndpointAuthMethod == ClientAuthMethodPrivateKeyJWT then
        (client, validateOIDCClientTokenEndpointAuthPublicKeyJWT client, false)
      else
        (client, [], false)
    if secret then
      if client.public then
        (client, errs0 ++ errsM, [])
      else
        match client.secret with
        | none => (client, errs0 ++ errsM ++ [.clientInvalidSecret], [])
        | some plain =>
          if plain && !(client.tokenEndpointAuthMethod == ClientAuthMethodClientSecretJWT) then
            (client, errs0 ++ errsM, [.clientInvalidSecretPlainText])
          else if !plain &&
              client.tokenEndpointAuthMethod == ClientAuthMethodClientSecretJWT then
            (client, errs0 ++ errsM ++ [.clientInvalidSecretNotPlainText], [])
          else
            (client, errs0 ++ errsM, [])
    else
      match client.secret with
      | none => (client, errs0 ++ errsM, [])
      | some _ =>
        if client.public then
          (client, errs0 ++ errsM ++ [.clientPublicInvalidSecret], [])
        else
          (client, errs0 ++ errsM ++ [.clientPublicInvalidSecretClientAuthMethod], [])

/-- C9: for every client whose token endpoint auth method is non-empty and not one
of the known methods, validation records only the invalid-value error for that
field and returns immediately: the client is unchanged, no other error (secret
missing, plaintext, private-key-JWT requirements) and no warning is emitted. -/
theorem c9_unknown_auth_method_short_circuits (client : OIDCClient)
    (h1 : client.tokenEndpointAuthMethod ≠ "")
    (h2 : client.tokenEndpointAuthMethod ∉ validOIDCClientTokenEndpointAuthMethods) :
    validateOIDCClientTokenEndpointAuth client =
      (client, [.clientInvalidValue attrOIDCTokenAuthMethod], []) := by
  unfold validateOIDCClientTokenEndpointAuth
  have hb1 : (client.tokenEndpointAuthMethod == "") = false := by simp [h1]
  have hb2 : IsStringInSlice client.tokenEndpointAuthMethod
      validOIDCClientTokenEndpointAuthMethods = false := by
    rw [← Bool.not_eq_true]
    intro hc
    exact h2 ((isStringInSlice_iff _ _).mp hc)
  simp [hb1, hb2]

/-- A client with the unknown method `bad_method`. -/
def clientBadAuthMethod : OIDCClient :=
  { public := false, responseTypes := ["code"], tokenEndpointAuthMethod := "badmethod",
    tokenEndpointAuthSigningAlg := "", secret := none, publicKeysURI := none,
    publicKeysValues := [], clientRequestObjectSigningAlgs := [] }

/-- C9 witness: a confidential client with no secret and the unknown method
`badmethod` gets exactly the invalid-value error — in particular no
missing-secret error despite the missing secret. -/
theorem c9_unknown_auth_method_short_circuits_witness :
    validateOIDCClientTokenEndpointAuth clientBadAuthMethod =
      (clientBadAuthMethod, [.clientInvalidValue attrOIDCTokenAuthMethod], []) :=
  c9_unknown_auth_method_short_circuits clientBadAuthMethod (by decide) (by decide)

/-- `auto`: the legacy consent-mode value treated as unset. -/
def auto : String := "auto"

/-- `oidc.ClientConsentModeExplicit.String()`. -/
def ClientConsentModeExplicit : String := "explicit"

/-- `oidc.ClientConsentModeImplicit.String()`. -/
def ClientConsentModeImplicit : String := "implicit"

/-- `oidc.ClientConsentModePreConfigured.String()`. -/
def ClientConsentModePreConfigured : String := "pre_configured"

/-- Modelled from the spec: `validOIDCClientConsentModes` is not under `src/`;
§3 gives the consent-mode enumeration `explicit | implicit | pre-configured`. -/
def validOIDCClientConsentModes : List String :=
  [ClientConsentModeExplicit, ClientConsentModeImplicit, ClientConsentModePreConfigured]

/-- `validateOIDCClientConsentMode`: an unset or `auto` mode becomes
`pre_configured` when a pre-configured consent duration is configured and
`explicit` otherwise; other values must be one of the known modes; finally a
`pre_configured` mode with no duration receives the default duration
(`defaultDuration` mirrors
`schema.DefaultOpenIDConnectClientConfiguration.ConsentPreConfiguredDuration`). -/
def validateOIDCClientConsentMode (mode : String) (duration : Option Nat)
    (defaultDuration : Nat) : String × Option Nat × List VErr :=
  let (mode, errs) :=
    if IsStringInSlice mode ["", auto] then
      (if duration.isSome then ClientConsentModePreConfigured else ClientConsentModeExplicit,
       ([] : List VErr))
    else if IsStringInSlice mode validOIDCClientConsentModes then
      (mode, [])
    else
      (mode, [VErr.clientInvalidConsentMode])
  let duration :=
    if mode == ClientConsentModePreConfigured && duration.isNone then
      some defaultDuration
    else
      duration
  (mode, duration, errs)

/-- C10: the consent mode `auto` is treated identically to an unset mode — both
become `pre_configured` when a pre-configured duration is configured and
`explicit` otherwise, with no error and the duration unchanged; and whenever the
resulting mode is `pre_configured` while no duration was configured, the default
duration is applied. -/
theorem c10_consent_mode_auto_default (mode : String) (duration : Option Nat)
    (dflt : Nat) :
    ((mode = "" ∨ mode = auto) →
      validateOIDCClientConsentMode mode duration dflt =
        ((if duration.isSome then ClientConsentModePreConfigured
          else ClientConsentModeExplicit), duration, [])) ∧
    ((validateOIDCClientConsentMode mode duration dflt).1 = ClientConsentModePreConfigured →
      duration = none →
      (validateOIDCClientConsentMode mode duration dflt).2.1 = some dflt) := by
  constructor
  · intro hm
    have hmem : IsStringInSlice mode ["", auto] = true := by
      rcases hm with h | h <;> simp [IsStringInSlice, h]
    unfold validateOIDCClientConsentMode
    rw [hmem]
    cases hd : duration with
    | none => simp [ClientConsentModePreConfigured, ClientConsentModeExplicit]
    | some d => simp [ClientConsentModePreConfigured]
  · intro hmode hdur
    subst hdur
    revert hmode
    unfold validateOIDCClientConsentMode
    by_cases hmem : IsStringInSlice mode ["", auto] = true
    · rw [hmem]
      simp [ClientConsentModePreConfigured, ClientConsentModeExplicit]
    · rw [Bool.not_eq_true] at hmem
      rw [hmem]
      by_cases hval : IsStringInSlice mode validOIDCClientConsentModes = true
      · rw [hval]
        intro hmode
        simp at hmode
        simp [hmode]
      · rw [Bool.not_eq_true] at hval
        rw [hval]
        intro hmode
        simp at hmode
        simp [hmode]

/-- C10 witness: `auto` with a configured duration resolves to `pre_configured`
with no error; an explicit `pre_configured` mode with no duration receives the
default. -/
theorem c10_consent_mode_auto_default_witness :
    validateOIDCClientConsentMode auto (some 5) 3 =
      (ClientConsentModePreConfigured, some 5, []) ∧
    (validateOIDCClientConsentMode ClientConsentModePreConfigured none 3).2.1 = some 3 := by
  constructor
  · have h := (c10_consent_mode_auto_default auto (some 5) 3).1 (Or.inr rfl)
    simpa using h
  · exact (c10_consent_mode_auto_default ClientConsentModePreConfigured none 3).2
      (by decide) rfl

end AutheliaOIDC
